import Mathlib

/-!
TimeTracker (src/app.js)

A shallow embedding of the `TimeTracker` class of `src/app.js` and the
properties of its time arithmetic, validation, reset and export logic.

Modelling conventions.

* A JavaScript string is the list of its characters (`Str`).
* A JavaScript number is an IEEE 754 double.  The numbers of this program
  are `NaN`, the infinities and doubles whose value is an integer (`Num`);
  every arithmetic result is rounded to the nearest double, so sums, products
  and differences are exact up to `2^53` and rounded beyond, and numbers print
  as `Number.prototype.toString` prints them (exponent notation from `1e+21`).
* The page is a record (`Form`) of exactly the DOM properties the class reads
  or writes; every method is a function on that record.  The timer `showError`
  sets is not part of the record; its firing is an event of a run (`Event`).
-/

namespace TimeTracker

/-! ## Strings -/

/-- A JavaScript string value. -/
abbrev Str := List Char

/-- ECMAScript `WhiteSpace` and `LineTerminator` code points: what `trim`,
`parseInt` and the regular expression class `\s` treat as white space. -/
def isWhiteSpace (c : Char) : Bool :=
  let n := c.toNat
  n = 0x09 || n = 0x0A || n = 0x0B || n = 0x0C || n = 0x0D || n = 0x20 ||
  n = 0xA0 || n = 0x1680 || (0x2000 ≤ n && n ≤ 0x200A) || n = 0x2028 ||
  n = 0x2029 || n = 0x202F || n = 0x205F || n = 0x3000 || n = 0xFEFF

/-- The function `String.prototype.trimStart`. -/
def trimStart : Str → Str
  | [] => []
  | c :: cs => if isWhiteSpace c then trimStart cs else c :: cs

/-- The function `String.prototype.trim`. -/
def trim (s : Str) : Str :=
  (trimStart (trimStart s).reverse).reverse

/-- The call `s.padStart(2, '0')`. -/
def padStart2 (s : Str) : Str :=
  List.replicate (2 - s.length) '0' ++ s

/-- The pieces of `s.split(':')`, as the first piece and the remaining ones
(the array returned by `split` is never empty). -/
def splitColon : Str → Str × List Str
  | [] => ([], [])
  | c :: cs =>
    let r := splitColon cs
    if c = ':' then ([], r.1 :: r.2) else (c :: r.1, r.2)

/-- The call `s.split(':')`. -/
def split (s : Str) : List Str :=
  (splitColon s).1 :: (splitColon s).2

/-- The scan behind `replaceSpaces`; `inRun` tells whether the previous
character was white space, whose run has already produced its underscore. -/
def replaceSpacesAux : Bool → Str → Str
  | _, [] => []
  | inRun, c :: cs =>
    if isWhiteSpace c then
      if inRun then replaceSpacesAux true cs else '_' :: replaceSpacesAux true cs
    else c :: replaceSpacesAux false cs

/-- The call `s.replace(/\s+/g, '_')`: every maximal run of white space
becomes one underscore. -/
def replaceSpaces (s : Str) : Str :=
  replaceSpacesAux false s

/-! ## Numbers -/

/-- The integer nearest to `p / q`, a tie going to the even neighbour. -/
def roundHalfEven (p q : Nat) : Nat :=
  if 2 * (p % q) < q then p / q
  else if q < 2 * (p % q) then p / q + 1
  else if (p / q) % 2 = 0 then p / q
  else p / q + 1

/-- The position of the leading binary digit, with `fuel` steps at most. -/
def log2Aux : Nat → Nat → Nat
  | 0, _ => 0
  | fuel + 1, n => if n < 2 then 0 else log2Aux fuel (n / 2) + 1

/-- The position of the leading binary digit of `n`: the largest `e` with
`2 ^ e ≤ n` (0 for `n = 0`). -/
def log2 (n : Nat) : Nat :=
  log2Aux n n

/-- The IEEE 754 double nearest to a natural number (round to nearest on a
significand of 53 bits, ties to even), or `none` when the rounded value is
beyond the largest finite double, which is then `Infinity`. -/
def nearestDouble (n : Nat) : Option Nat :=
  if n < 2 ^ 53 then some n
  else
    let shift := log2 n - 52
    let v := roundHalfEven n (2 ^ shift) * 2 ^ shift
    if log2 v < 1024 then some v else none

/-- A JavaScript number of the kind this program computes with: `NaN`, an
infinity, or a finite double whose value is an integer, given by that integer.
(Every number here comes from `parseInt`, `+`, `-`, `*`, `%` or `Math.floor`
on such numbers.  The two zeros are one value: the program prints both as `0`
and never divides by them.) -/
inductive Num where
  | nan : Num
  | inf (negative : Bool) : Num
  | int (n : Int) : Num
  deriving DecidableEq, Repr

namespace Num

/-- The number value of a mathematical integer: the nearest double. -/
def ofInt : Int → Num
  | .ofNat n =>
    match nearestDouble n with
    | some v => int (v : Int)
    | none => inf false
  | .negSucc n =>
    match nearestDouble (n + 1) with
    | some v => int (-(v : Int))
    | none => inf true

/-- JavaScript `a * b`. -/
def mul : Num → Num → Num
  | int a, int b => ofInt (a * b)
  | inf s, inf t => inf (s != t)
  | inf s, int b => if b = 0 then nan else inf (s != decide (b < 0))
  | int a, inf t => if a = 0 then nan else inf (decide (a < 0) != t)
  | _, _ => nan

/-- JavaScript `a + b` on numbers. -/
def add : Num → Num → Num
  | int a, int b => ofInt (a + b)
  | inf s, int _ => inf s
  | int _, inf t => inf t
  | inf s, inf t => if s = t then inf s else nan
  | _, _ => nan

/-- JavaScript `a - b`. -/
def sub : Num → Num → Num
  | int a, int b => ofInt (a - b)
  | inf s, int _ => inf s
  | int _, inf t => inf (!t)
  | inf s, inf t => if s = t then nan else inf s
  | _, _ => nan

/-- JavaScript `a > b`: false as soon as one side is `NaN`. -/
def gt : Num → Num → Bool
  | int a, int b => decide (b < a)
  | inf s, int _ => !s
  | int _, inf t => t
  | inf s, inf t => !s && t
  | _, _ => false

/-- JavaScript `a <= b`: false as soon as one side is `NaN`. -/
def le : Num → Num → Bool
  | int a, int b => decide (a ≤ b)
  | inf s, int _ => s
  | int _, inf t => !t
  | inf s, inf t => s || !t
  | _, _ => false

/-- JavaScript `a >= b`: false as soon as one side is `NaN`. -/
def ge : Num → Num → Bool
  | int a, int b => decide (b ≤ a)
  | inf s, int _ => !s
  | int _, inf t => t
  | inf s, inf t => !s || t
  | _, _ => false

/-- JavaScript `x || 0` for `x` a number or `undefined` (`none`): the falsy
values `undefined`, `NaN` and `0` all give `0`. -/
def orZero : Option Num → Num
  | some (int n) => int n
  | some (inf s) => inf s
  | _ => int 0

/-- A possibly `undefined` value used as an arithmetic operand:
`undefined` converts to `NaN`. -/
def ofUndefined : Option Num → Num
  | some x => x
  | none => nan

/-- For a natural number `n`, the floor of the double nearest to `n / 60`
(the quotient is rounded to a double before `Math.floor` sees it).  With
`2 ^ e ≤ n / 60 < 2 ^ (e + 1)` the double is `m * 2 ^ (e - 52)` for the
integer `m` nearest to `n / 60 * 2 ^ (52 - e)`. -/
def floorDiv60Nat (n : Nat) : Nat :=
  if n < 60 then 0
  else
    let e := log2 (n / 60)
    if e ≤ 52 then roundHalfEven (n * 2 ^ (52 - e)) 60 / 2 ^ (52 - e)
    else roundHalfEven n (60 * 2 ^ (e - 52)) * 2 ^ (e - 52)

/-- For a natural number `n`, the ceiling of the double nearest to `n / 60`. -/
def ceilDiv60Nat (n : Nat) : Nat :=
  if n = 0 then 0
  else if n < 60 then 1
  else
    let e := log2 (n / 60)
    if e ≤ 52 then
      (roundHalfEven (n * 2 ^ (52 - e)) 60 + (2 ^ (52 - e) - 1)) / 2 ^ (52 - e)
    else roundHalfEven n (60 * 2 ^ (e - 52)) * 2 ^ (e - 52)

/-- JavaScript `Math.floor(x / 60)`. -/
def floorDiv60 : Num → Num
  | int (.ofNat n) => int (floorDiv60Nat n : Nat)
  | int (.negSucc n) => int (-(ceilDiv60Nat (n + 1) : Nat))
  | inf s => inf s
  | nan => nan

/-- JavaScript `x % 60`: exact, the remainder takes the sign of the dividend,
and the remainder of an infinity is `NaN`. -/
def rem60 : Num → Num
  | int n => int (Int.tmod n 60)
  | inf _ => nan
  | nan => nan

end Num

/-- The decimal digit character of a value below ten. -/
def digitChar (d : Nat) : Char :=
  Char.ofNat (48 + d)

/-- Decimal digits of a natural number, most significant first, onto `acc`;
`fuel` bounds the number of digits. -/
def natDigitsAux : Nat → Nat → Str → Str
  | 0, _, acc => acc
  | fuel + 1, n, acc =>
    if n < 10 then digitChar n :: acc
    else natDigitsAux fuel (n / 10) (digitChar (n % 10) :: acc)

/-- Decimal representation of a natural number. -/
def natToString (n : Nat) : Str :=
  natDigitsAux (n + 1) n []

/-- The search of `Number.prototype.toString` for the shortest decimal that
reads back as the double `x` (of `n` decimal digits): for `k = 1, 2, ...`
significant digits, the two `k`-digit neighbours of `x` are tried, and of two
that both read back as `x` the nearer is taken (the even one on a tie).  The
result is the digits as a number and the count of zeros that follow them. -/
def shortestDecimal (x n : Nat) : Nat → Nat → Nat × Nat
  | 0, _ => (x, 0)
  | fuel + 1, k =>
    let p := 10 ^ (n - k)
    let lo := x / p
    let okLo := decide (nearestDouble (lo * p) = some x)
    let okHi := decide (nearestDouble ((lo + 1) * p) = some x)
    if okLo && okHi then
      if x - lo * p < (lo + 1) * p - x then (lo, n - k)
      else if (lo + 1) * p - x < x - lo * p then (lo + 1, n - k)
      else if lo % 2 = 0 then (lo, n - k)
      else (lo + 1, n - k)
    else if okLo then (lo, n - k)
    else if okHi then (lo + 1, n - k)
    else shortestDecimal x n fuel (k + 1)

/-- A digit string without its trailing zeros. -/
def dropTrailingZeros (s : Str) : Str :=
  (s.reverse.dropWhile fun c => c = '0').reverse

/-- The shortest decimal that reads back as the double `x`, printed as
`Number.prototype.toString` prints an integer: the digits found by
`shortestDecimal` (17 significant digits always suffice), padded with zeros
while the value has at most 21 digits, in exponent notation from `1e+21` on. -/
def shortestString (x : Nat) : Str :=
  let r := shortestDecimal x (natToString x).length 17 1
  let digits := natToString r.1
  let n := digits.length + r.2
  if n ≤ 21 then digits ++ List.replicate r.2 '0'
  else
    match dropTrailingZeros digits with
    | [] => digits
    | [d] => d :: 'e' :: '+' :: natToString (n - 1)
    | d :: ds => d :: '.' :: ds ++ 'e' :: '+' :: natToString (n - 1)

/-- The function `Number.prototype.toString` on a double that is a
non-negative integer.  Up to `2 ^ 53` every integer is its own double, so the
shortest decimal that reads back as `x` is the decimal expansion of `x`;
beyond, it is found by search. -/
def natNumToString (x : Nat) : Str :=
  if x ≤ 2 ^ 53 then natToString x else shortestString x

/-- The function `Number.prototype.toString` (also what a template literal
applies to a number). -/
def numToString : Num → Str
  | .nan => ['N', 'a', 'N']
  | .inf false => "Infinity".toList
  | .inf true => "-Infinity".toList
  | .int (.ofNat n) => natNumToString n
  | .int (.negSucc n) => '-' :: natNumToString (n + 1)

/-- Value of a digit character in radix 10 or 16, if it is one. -/
def digitValue (radix : Nat) (c : Char) : Option Nat :=
  let n := c.toNat
  if 48 ≤ n ∧ n ≤ 57 then some (n - 48)
  else if radix = 16 ∧ 97 ≤ n ∧ n ≤ 102 then some (n - 87)
  else if radix = 16 ∧ 65 ≤ n ∧ n ≤ 70 then some (n - 55)
  else none

/-- Reads the longest prefix of radix digits; `acc` is the value read so far
and `seen` tells whether at least one digit was read.  No digit at all gives
`none`. -/
def readDigits (radix : Nat) : Str → Nat → Bool → Option Nat
  | [], acc, seen => if seen then some acc else none
  | c :: cs, acc, seen =>
    match digitValue radix c with
    | some d => readDigits radix cs (acc * radix + d) true
    | none => if seen then some acc else none

/-- The digits part of `parseInt`, after the sign: an optional `0x` / `0X`
prefix selects radix 16.  The result is the mathematical integer the digits
denote. -/
def parseUnsigned : Str → Option Nat
  | '0' :: 'x' :: cs => readDigits 16 cs 0 false
  | '0' :: 'X' :: cs => readDigits 16 cs 0 false
  | cs => readDigits 10 cs 0 false

/-- The global function `parseInt(s)` with no radix argument: the number
value (nearest double) of the signed integer read, `NaN` without a digit.
(Beyond 20 significant digits the language allows an approximation of the
digits; the value here is the correctly rounded one.) -/
def parseInt (s : Str) : Num :=
  match trimStart s with
  | '-' :: cs =>
    match parseUnsigned cs with
    | some n => Num.ofInt (-(n : Int))
    | none => .nan
  | '+' :: cs =>
    match parseUnsigned cs with
    | some n => Num.ofInt (n : Int)
    | none => .nan
  | cs =>
    match parseUnsigned cs with
    | some n => Num.ofInt (n : Int)
    | none => .nan

/-! ## Time arithmetic -/

/-- Method `timeToMinutes(timeString)`; `none` is an `undefined` argument. -/
def timeToMinutes (timeString : Option Str) : Num :=
  match timeString with
  | none => .int 0
  | some s =>
    if s = [] then .int 0
    else
      let parts := (split s).map parseInt
      let hours := parts[0]?
      let minutes := parts[1]?
      Num.add (Num.mul (Num.ofUndefined hours) (.int 60)) (Num.orZero minutes)

/-- Method `minutesToTimeString(minutes)`. -/
def minutesToTimeString (minutes : Num) : Str :=
  let hours := Num.floorDiv60 minutes
  let mins := Num.rem60 minutes
  numToString hours ++ [':'] ++ padStart2 (numToString mins)

/-! ## The page -/

/-- A form control: its current `value` and its `defaultValue` (the value
the markup gives it, which `HTMLFormElement.reset()` restores). -/
structure Input where
  value : Str
  defaultValue : Str
  deriving DecidableEq, Repr

/-- A `.day-entry` element: the text of its `h3` heading, its four inputs
(`.start-time`, `.end-time`, `.break-duration`, `.daily-hours`) and its
`style.borderColor`. -/
structure DayEntry where
  name : Str
  startTime : Input
  endTime : Input
  breakDuration : Input
  dailyHours : Input
  borderColor : Str
  deriving DecidableEq, Repr

/-- The `.validation-message` element next to a required field. -/
structure ValidationMessage where
  textContent : Str
  display : Str
  deriving DecidableEq, Repr

/-- A required top-level input: its value, whether its class list holds
`form-control` and `error`, and its validation message element, if one has
been created. -/
structure Field where
  input : Input
  formControl : Bool
  error : Bool
  message : Option ValidationMessage
  deriving DecidableEq, Repr

/-- The `#errorMessage` banner: its text and whether its class list holds
`hidden`. -/
structure Banner where
  textContent : Str
  hidden : Bool
  deriving DecidableEq, Repr

/-- The `#exportPdfBtn` button: whether its class list holds `btn--loading`,
its text and its `disabled` property (the busy flag). -/
structure Button where
  loading : Bool
  textContent : Str
  disabled : Bool
  deriving DecidableEq, Repr

/-- Everything of the page that `TimeTracker` reads or writes. -/
structure Form where
  employeeName : Field
  calendarWeek : Field
  costCenter : Field
  dayEntries : List DayEntry
  totalHours : Str
  overtimeHours : Str
  overtimeColor : Str
  errorMessage : Banner
  exportBtn : Button
  deriving DecidableEq, Repr

/-- The two per-day errors, named as in the error taxonomy. -/
inductive DayError where
  | EndNotAfterStart
  | BreakExceedsSpan
  deriving DecidableEq, Repr

/-- The message `calculateDailyHours` and `validateTimeInput` show for a
per-day error. -/
def DayError.message : DayError → Str
  | .EndNotAfterStart => "Endzeit muss nach der Startzeit liegen".toList
  | .BreakExceedsSpan => "Pausenzeit ist länger als die Arbeitszeit".toList

def colorError : Str := "var(--color-error)".toList
def colorBorder : Str := "var(--color-border)".toList
def colorWarning : Str := "var(--color-warning)".toList
def colorPrimary : Str := "var(--color-primary)".toList

/-! ## Error display -/

/-- Method `showError(message)`: sets the banner text and shows the banner.
(The timer that hides it again after 5000 ms is not part of the page; its
firing is the event `Event.dismiss`.) -/
def showError (_b : Banner) (message : Str) : Banner :=
  { textContent := message, hidden := false }

/-- Method `showFieldError(dayEntry, message)`. -/
def showFieldError (d : DayEntry) (b : Banner) (message : Str) : DayEntry × Banner :=
  ({ d with borderColor := colorError }, showError b (d.name ++ ": ".toList ++ message))

/-- Method `removeError(dayEntry)`. -/
def removeError (d : DayEntry) : DayEntry :=
  { d with borderColor := colorBorder }

/-- Method `showInputError(input, message)`: the validation message element
is created when the field has none. -/
def showInputError (f : Field) (message : Str) : Field :=
  { f with error := true, message := some { textContent := message, display := "block".toList } }

/-- Method `removeInputError(input)`. -/
def removeInputError (f : Field) : Field :=
  { f with
    error := false
    message := f.message.map fun m => { m with display := "none".toList } }

/-! ## Daily hours and totals -/

/-- The expression `parseInt(breakInput.value) || 0`. -/
def breakMinutes (breakValue : Str) : Num :=
  Num.orZero (some (parseInt breakValue))

/-- Method `calculateDailyHours(dayEntry)`, on the day entry and the banner
it may write to. -/
def calculateDailyHours (d : DayEntry) (b : Banner) : DayEntry × Banner :=
  let startTime := d.startTime.value
  let endTime := d.endTime.value
  let breakDuration := breakMinutes d.breakDuration.value
  if startTime ≠ [] ∧ endTime ≠ [] then
    let start := timeToMinutes (some startTime)
    let end_ := timeToMinutes (some endTime)
    if Num.gt end_ start then
      let workMinutes := Num.sub (Num.sub end_ start) breakDuration
      if Num.ge workMinutes (.int 0) then
        (removeError
          { d with dailyHours := { d.dailyHours with value := minutesToTimeString workMinutes } }, b)
      else
        showFieldError { d with dailyHours := { d.dailyHours with value := "0:00".toList } } b
          DayError.BreakExceedsSpan.message
    else
      showFieldError { d with dailyHours := { d.dailyHours with value := "0:00".toList } } b
        DayError.EndNotAfterStart.message
  else
    ({ d with dailyHours := { d.dailyHours with value := [] } }, b)

/-- The sum `calculateTotals` accumulates over the day entries. -/
def totalMinutes (days : List DayEntry) : Num :=
  days.foldl
    (fun total d =>
      if d.dailyHours.value ≠ [] then Num.add total (timeToMinutes (some d.dailyHours.value))
      else total)
    (.int 0)

/-- Method `calculateTotals()`. -/
def calculateTotals (s : Form) : Form :=
  let total := totalMinutes s.dayEntries
  let overtimeMinutes := Num.sub total (.int 2400)
  { s with
    totalHours := minutesToTimeString total
    overtimeHours :=
      if Num.gt overtimeMinutes (.int 0) then minutesToTimeString overtimeMinutes
      else "0:00".toList
    overtimeColor := if Num.gt overtimeMinutes (.int 0) then colorWarning else colorPrimary }

/-! ## Validation -/

/-- Method `validateTimeInput(dayEntry)`, on the day entry and the banner it
may write to; the boolean is the returned value. -/
def validateTimeInput (d : DayEntry) (b : Banner) : (DayEntry × Banner) × Bool :=
  let startTime := d.startTime.value
  let endTime := d.endTime.value
  if startTime ≠ [] ∧ endTime ≠ [] then
    let start := timeToMinutes (some startTime)
    let end_ := timeToMinutes (some endTime)
    if Num.le end_ start then
      (showFieldError d b DayError.EndNotAfterStart.message, false)
    else
      ((removeError d, b), true)
  else
    ((removeError d, b), true)

/-- A failure shown to the user by `validateForm`: a message under a required
field (by element id) or the banner message. -/
inductive Failure where
  | required (fieldId : Str) (message : Str)
  | banner (message : Str)
  deriving DecidableEq, Repr

def requiredMessage : Str := "Dieses Feld ist erforderlich".toList

def noWorkingHoursMessage : Str :=
  "Bitte geben Sie für mindestens einen Tag Arbeitszeiten ein.".toList

/-- One round of the loop over `requiredFields` in `validateForm`: the field
after the round, the failure shown (if any) and whether the field passed. -/
def checkRequired (fieldId : Str) (f : Field) : Field × List Failure × Bool :=
  if trim f.input.value = [] then
    (showInputError f requiredMessage, [Failure.required fieldId requiredMessage], false)
  else
    (removeInputError f, [], true)

/-- The flag `hasWorkingHours` computed by the second loop of `validateForm`. -/
def hasWorkingHours (days : List DayEntry) : Bool :=
  days.foldl
    (fun has d =>
      if d.dailyHours.value ≠ [] ∧ d.dailyHours.value ≠ "0:00".toList then true else has)
    false

/-- What a run of `validateForm` produces: the page afterwards, the failures
shown in the order they were shown, and the returned `isValid`. -/
structure Validation where
  form : Form
  shown : List Failure
  isValid : Bool
  deriving DecidableEq, Repr

/-- Method `validateForm()`. -/
def validateForm (s : Form) : Validation :=
  let r1 := checkRequired "employeeName".toList s.employeeName
  let r2 := checkRequired "calendarWeek".toList s.calendarWeek
  let r3 := checkRequired "costCenter".toList s.costCenter
  let s1 := { s with employeeName := r1.1, calendarWeek := r2.1, costCenter := r3.1 }
  let fieldsValid := r1.2.2 && r2.2.2 && r3.2.2
  let fieldFailures := r1.2.1 ++ r2.2.1 ++ r3.2.1
  if hasWorkingHours s.dayEntries then
    { form := s1, shown := fieldFailures, isValid := fieldsValid }
  else
    { form := { s1 with errorMessage := showError s1.errorMessage noWorkingHoursMessage }
      shown := fieldFailures ++ [Failure.banner noWorkingHoursMessage]
      isValid := false }

/-! ## Report generation -/

/-- What `exportToPDF` hands to the document library: the strings passed to
`doc.text`, in call order, and the file name passed to `doc.save`.  (Font
settings, rectangles and lines are layout only.) -/
structure Report where
  texts : List Str
  filename : Str
  deriving DecidableEq, Repr

/-- The expression `value || fallback` on strings. -/
def orElse (value fallback : Str) : Str :=
  if value = [] then fallback else value

def dayNames : List Str :=
  ["Montag".toList, "Dienstag".toList, "Mittwoch".toList, "Donnerstag".toList, "Freitag".toList]

/-- The rows pushed to `tableData`, for the day entries from position `index`
on.  (A sixth entry would have no day name; the library call failing on it is
covered by the failure case of `exportToPDF`.) -/
def tableData : Nat → List DayEntry → List (List Str)
  | _, [] => []
  | index, d :: ds =>
    [ dayNames.getD index "undefined".toList,
      orElse d.startTime.value "-".toList,
      orElse d.endTime.value "-".toList,
      orElse d.breakDuration.value "0".toList ++ " Min".toList,
      orElse d.dailyHours.value "-".toList ] :: tableData (index + 1) ds

/-- The document built in the `try` block of `exportToPDF`. -/
def buildReport (currentDate : Str) (s : Form) : Report :=
  let employeeName := s.employeeName.input.value
  let calendarWeek := s.calendarWeek.input.value
  let costCenter := s.costCenter.input.value
  { texts :=
      [ "STUNDENERFASSUNG".toList,
        "Erstellt am: ".toList ++ currentDate,
        "Mitarbeiter-Informationen:".toList,
        "Name: ".toList ++ employeeName,
        "Kalenderwoche: ".toList ++ calendarWeek,
        "Kostenstelle: ".toList ++ costCenter,
        "Arbeitszeiterfassung:".toList,
        "Tag".toList, "Start".toList, "Ende".toList, "Pause".toList, "Arbeitszeit".toList ]
      ++ (tableData 0 s.dayEntries).flatten
      ++ [ "Zusammenfassung:".toList,
           "Gesamtstunden: ".toList ++ s.totalHours,
           "Sollstunden: 40:00".toList,
           "Überstunden: ".toList ++ s.overtimeHours,
           "Unterschrift Mitarbeiter:".toList,
           "Unterschrift Vorgesetzter:".toList ]
    filename :=
      "Stundenerfassung_".toList ++ replaceSpaces employeeName ++ "_".toList
        ++ replaceSpaces calendarWeek ++ ".pdf".toList }

def exportFailedMessage : Str :=
  "Fehler beim Erstellen der PDF. Bitte versuchen Sie es erneut.".toList

/-- Method `exportToPDF()`.  The body has no `await`, so it runs to completion
in one step.  `currentDate` is the formatted date of the call and
`libraryThrows` tells whether some statement of the `try` block (the document
library) throws; the result is the page afterwards and the saved report, if
any. -/
def exportToPDF (currentDate : Str) (libraryThrows : Bool) (s : Form) : Form × Option Report :=
  let v := validateForm s
  if !v.isValid then
    (v.form, none)
  else
    let s1 := { v.form with
      exportBtn := { loading := true, textContent := "Exportiere...".toList, disabled := true } }
    let r : Form × Option Report :=
      if libraryThrows then
        ({ s1 with errorMessage := showError s1.errorMessage exportFailedMessage }, none)
      else
        (s1, some (buildReport currentDate s1))
    ({ r.1 with
        exportBtn :=
          { loading := false, textContent := "PDF exportieren".toList, disabled := false } },
      r.2)

/-! ## Reset -/

/-- The reset of one control: its value goes back to its default value. -/
def Input.reset (i : Input) : Input :=
  { i with value := i.defaultValue }

/-- Modelled from the spec: the call `this.form.reset()`.  The markup of the
page (index.html) is not among the sources; following the reset contract the
form owns the three required fields and the inputs of every day entry, and
each goes back to the default value its markup gives it. -/
def formReset (s : Form) : Form :=
  { s with
    employeeName := { s.employeeName with input := s.employeeName.input.reset }
    calendarWeek := { s.calendarWeek with input := s.calendarWeek.input.reset }
    costCenter := { s.costCenter with input := s.costCenter.input.reset }
    dayEntries := s.dayEntries.map fun (d : DayEntry) =>
      { d with
        startTime := d.startTime.reset
        endTime := d.endTime.reset
        breakDuration := d.breakDuration.reset
        dailyHours := d.dailyHours.reset } }

/-- The loop over `document.querySelectorAll('.form-control.error')` of
`resetForm`, on one required field. -/
def clearInputError (f : Field) : Field :=
  if f.formControl && f.error then removeInputError f else f

/-- Method `resetForm()`; `confirmed` is the answer of the `confirm` dialog. -/
def resetForm (confirmed : Bool) (s : Form) : Form :=
  if confirmed then
    let s1 := formReset s
    let s2 := { s1 with
      dayEntries := s1.dayEntries.map fun (d : DayEntry) =>
        { d with
          breakDuration := { d.breakDuration with value := "30".toList }
          dailyHours := { d.dailyHours with value := [] } } }
    let s3 := { s2 with dayEntries := s2.dayEntries.map removeError }
    let s4 := { s3 with
      employeeName := clearInputError s3.employeeName
      calendarWeek := clearInputError s3.calendarWeek
      costCenter := clearInputError s3.costCenter }
    let s5 := calculateTotals s4
    { s5 with errorMessage := { s5.errorMessage with hidden := true } }
  else
    s

/-! ## Event handlers -/

/-- The `input` listener of the inputs of day entry number `i`:
`calculateDailyHours(dayEntry)` then `calculateTotals()`. -/
def inputEvent (i : Nat) (s : Form) : Form :=
  match s.dayEntries[i]? with
  | none => s
  | some d =>
    let r := calculateDailyHours d s.errorMessage
    calculateTotals { s with dayEntries := s.dayEntries.set i r.1, errorMessage := r.2 }

/-- The `blur` listener of the inputs of day entry number `i`:
`validateTimeInput(dayEntry)`. -/
def blurEvent (i : Nat) (s : Form) : Form :=
  match s.dayEntries[i]? with
  | none => s
  | some d =>
    let r := validateTimeInput d s.errorMessage
    { s with dayEntries := s.dayEntries.set i r.1.1, errorMessage := r.1.2 }

/-! ## Reference definitions -/

/-- The result of `computeDailyMinutes` as the specification describes it:
the daily minutes (`none` when unset) and the error kind (`none` for no
error). -/
structure DailyResult where
  minutes : Option Num
  error : Option DayError
  deriving DecidableEq, Repr

/-- The reference definition of `computeDailyMinutes`, case by case as the
specification words it, with `timeToMinutes` as the parser and the comparisons
`<=` and `>` of the language. -/
def computeDailyMinutes (start end_ : Str) (breakDuration : Num) : DailyResult :=
  if start = [] ∨ end_ = [] then
    { minutes := none, error := none }
  else if Num.le (timeToMinutes (some end_)) (timeToMinutes (some start)) then
    { minutes := some (.int 0), error := some .EndNotAfterStart }
  else if Num.gt breakDuration
      (Num.sub (timeToMinutes (some end_)) (timeToMinutes (some start))) then
    { minutes := some (.int 0), error := some .BreakExceedsSpan }
  else
    { minutes :=
        some (Num.sub (Num.sub (timeToMinutes (some end_)) (timeToMinutes (some start)))
          breakDuration)
      error := none }

/-- How a daily result appears on the page: the daily-hours text is empty
for unset minutes and the formatted minutes otherwise; an error is shown with
`showFieldError`; set minutes without error clear the day's error border; unset
minutes leave border and banner alone. -/
def DailyResult.onPage (r : DailyResult) (d : DayEntry) (b : Banner) : DayEntry × Banner :=
  match r.minutes, r.error with
  | none, _ => ({ d with dailyHours := { d.dailyHours with value := [] } }, b)
  | some m, none =>
    (removeError { d with dailyHours := { d.dailyHours with value := minutesToTimeString m } }, b)
  | some m, some e =>
    showFieldError { d with dailyHours := { d.dailyHours with value := minutesToTimeString m } } b
      e.message

/-- A daily result holds a non-negative number whenever it holds minutes. -/
def DailyResult.NonNegative (r : DailyResult) : Prop :=
  match r.minutes with
  | none => True
  | some (.int m) => 0 ≤ m
  | some (.inf negative) => negative = false
  | some .nan => False

/-- That `calculateDailyHours` reports the error `EndNotAfterStart` for a day
entry: it shows that error on a daily-hours value of `0:00`. -/
def ReportsEndNotAfterStart (d : DayEntry) (b : Banner) : Prop :=
  calculateDailyHours d b
    = showFieldError { d with dailyHours := { d.dailyHours with value := "0:00".toList } } b
        DayError.EndNotAfterStart.message

instance (d : DayEntry) (b : Banner) : Decidable (ReportsEndNotAfterStart d b) := by
  unfold ReportsEndNotAfterStart
  infer_instance

/-- The reference definition of `formatMinutes`, as the specification words
it: `H:MM`, with whole hours by integer floor division and the remainder
minutes zero-padded to two digits. -/
def formatMinutes (minutes : Nat) : Str :=
  natToString (minutes / 60) ++ ':' :: padStart2 (natToString (minutes % 60))

/-- The daily-hours text of a day whose daily minutes are `m`: empty when
unset, the formatted minutes otherwise (`0:00` for an invalid day). -/
def displayMinutes : Option Nat → Str
  | none => []
  | some m => formatMinutes m

/-- The day entries show the daily minutes `ms`, day by day. -/
def ShowsMinutes (days : List DayEntry) (ms : List (Option Nat)) : Prop :=
  days.map (fun d => d.dailyHours.value) = ms.map displayMinutes

instance (days : List DayEntry) (ms : List (Option Nat)) : Decidable (ShowsMinutes days ms) := by
  unfold ShowsMinutes
  infer_instance

/-- The weekly total of the specification: the sum of the set daily minutes,
an unset day counting for 0. -/
def weekTotal (ms : List (Option Nat)) : Nat :=
  (ms.map fun m => m.getD 0).sum

/-- Whether some day has daily minutes that are set and non-zero. -/
def someDayWorked (ms : List (Option Nat)) : Bool :=
  ms.any fun m =>
    match m with
    | some k => decide (k ≠ 0)
    | none => false

/-- The failure sequence the specification prescribes for `validateForm`: a
`required` failure for each required field that is blank after trimming, in
declaration order, then the aggregate failure unless some day has worked
minutes. -/
def expectedFailures (s : Form) (ms : List (Option Nat)) : List Failure :=
  (([("employeeName".toList, s.employeeName), ("calendarWeek".toList, s.calendarWeek),
      ("costCenter".toList, s.costCenter)].filter fun p => decide (trim p.2.input.value = [])).map
    fun p => Failure.required p.1 requiredMessage)
  ++ if someDayWorked ms then [] else [Failure.banner noWorkingHoursMessage]

/-- The values of the four inputs of a day entry: start, end, break and
daily hours. -/
def DayEntry.values (d : DayEntry) : Input × Input × Input × Input :=
  (d.startTime, d.endTime, d.breakDuration, d.dailyHours)

/-! ## Runs of the page -/

/-- The inputs of a day entry a user types into. -/
inductive DayControl where
  | startTime
  | endTime
  | breakDuration
  deriving DecidableEq, Repr

/-- The three required fields. -/
inductive RequiredField where
  | employeeName
  | calendarWeek
  | costCenter
  deriving DecidableEq, Repr

/-- What happens to the page between its creation and any later moment: the
user types a text into an input of day entry `i` (its `input` listener runs),
leaves such an input (its `blur` listener runs), types into a required field
(no listener), clicks the export button or submits the form (both listeners
call `exportToPDF`; the date of the call and whether the document library
throws come with the event), clicks the reset button and answers the dialog,
or a timer set by `showError` fires and hides the banner. -/
inductive Event where
  | type (i : Nat) (control : DayControl) (text : Str)
  | blur (i : Nat)
  | fill (field : RequiredField) (text : Str)
  | clickExport (currentDate : Str) (libraryThrows : Bool)
  | submit (currentDate : Str) (libraryThrows : Bool)
  | clickReset (confirmed : Bool)
  | dismiss
  deriving DecidableEq, Repr

/-- Whether an event invokes report generation. -/
def Event.isExport : Event → Bool
  | .clickExport _ _ => true
  | .submit _ _ => true
  | _ => false

/-- A day entry after the user typed `text` into one of its inputs. -/
def DayEntry.typed (d : DayEntry) (control : DayControl) (text : Str) : DayEntry :=
  match control with
  | .startTime => { d with startTime := { d.startTime with value := text } }
  | .endTime => { d with endTime := { d.endTime with value := text } }
  | .breakDuration => { d with breakDuration := { d.breakDuration with value := text } }

/-- The page after the user typed `text` into a required field. -/
def Form.filled (s : Form) (field : RequiredField) (text : Str) : Form :=
  match field with
  | .employeeName =>
    { s with employeeName := { s.employeeName with input := { s.employeeName.input with value := text } } }
  | .calendarWeek =>
    { s with calendarWeek := { s.calendarWeek with input := { s.calendarWeek.input with value := text } } }
  | .costCenter =>
    { s with costCenter := { s.costCenter with input := { s.costCenter.input with value := text } } }

/-- One event: the page afterwards and the report saved by it, if any. -/
def step (e : Event) (s : Form) : Form × Option Report :=
  match e with
  | .type i control text =>
    match s.dayEntries[i]? with
    | none => (s, none)
    | some d => (inputEvent i { s with dayEntries := s.dayEntries.set i (d.typed control text) }, none)
  | .blur i => (blurEvent i s, none)
  | .fill field text => (s.filled field text, none)
  | .clickExport currentDate libraryThrows => exportToPDF currentDate libraryThrows s
  | .submit currentDate libraryThrows => exportToPDF currentDate libraryThrows s
  | .clickReset confirmed => (resetForm confirmed s, none)
  | .dismiss => ({ s with errorMessage := { s.errorMessage with hidden := true } }, none)

/-- A sequence of events from a page: the page at the end and the reports
saved on the way. -/
def run : List Event → Form → Form × List Report
  | [], s => (s, [])
  | e :: es, s => ((run es (step e s).1).1, (step e s).2.toList ++ (run es (step e s).1).2)

/-! ## Sample pages -/

/-- A day entry called Montag with the given start, end and break texts, no
daily hours yet and no inline border colour. -/
def sampleDay (start end_ breakValue : Str) : DayEntry :=
  { name := "Montag".toList
    startTime := { value := start, defaultValue := [] }
    endTime := { value := end_, defaultValue := [] }
    breakDuration := { value := breakValue, defaultValue := "30".toList }
    dailyHours := { value := [], defaultValue := [] }
    borderColor := [] }

/-- A hidden, empty banner. -/
def hiddenBanner : Banner :=
  { textContent := [], hidden := true }

/-- A required field holding the given text, with no error shown. -/
def sampleField (value : Str) : Field :=
  { input := { value := value, defaultValue := [] }
    formControl := true
    error := false
    message := none }

/-- A day entry called Montag without start and end whose daily-hours input
holds the given text. -/
def dayShowing (hours : Str) : DayEntry :=
  { sampleDay [] [] "30".toList with dailyHours := { value := hours, defaultValue := [] } }

/-- A page with the given required-field texts and day entries, zero totals,
a hidden banner and an idle export button. -/
def sampleForm (employeeName calendarWeek costCenter : Str) (days : List DayEntry) : Form :=
  { employeeName := sampleField employeeName
    calendarWeek := sampleField calendarWeek
    costCenter := sampleField costCenter
    dayEntries := days
    totalHours := "0:00".toList
    overtimeHours := "0:00".toList
    overtimeColor := colorPrimary
    errorMessage := hiddenBanner
    exportBtn := { loading := false, textContent := "PDF exportieren".toList, disabled := false } }

/-- The export button as `exportToPDF` leaves it: not loading, labelled
`PDF exportieren`, enabled. -/
def idleButton : Button :=
  { loading := false, textContent := "PDF exportieren".toList, disabled := false }

/-- A page that passes validation (three filled fields, one day showing
`7:30`) whose export button is in its loading state, busy flag set. -/
def busyForm : Form :=
  { sampleForm "Ada".toList "KW 12".toList "4711".toList
      [{ sampleDay "09:00".toList "17:00".toList "30".toList with
          dailyHours := { value := "7:30".toList, defaultValue := [] } }] with
    totalHours := "7:30".toList
    exportBtn := { loading := true, textContent := "Exportiere...".toList, disabled := true } }

/-! ## Decimal numerals -/

/-- Whether a character is one of `0` .. `9`. -/
def isDecimal (c : Char) : Bool :=
  decide (48 ≤ c.toNat) && decide (c.toNat ≤ 57)

/-- One step of reading a decimal numeral from the left. -/
def decimalStep (a : Nat) (c : Char) : Nat :=
  a * 10 + (c.toNat - 48)

/-- The number a string of decimal digits denotes. -/
def decimalValue (s : Str) : Nat :=
  s.foldl decimalStep 0

/-! ## Lemmas on decimal numerals -/

theorem digitValue_of_isDecimal (radix : Nat) (c : Char) (h : isDecimal c = true) :
    digitValue radix c = some (c.toNat - 48) := by
  simp only [isDecimal, Bool.and_eq_true, decide_eq_true_eq] at h
  simp [digitValue, h.1, h.2]

theorem digitChar_spec (d : Nat) (h : d < 10) :
    isDecimal (digitChar d) = true ∧ (digitChar d).toNat - 48 = d := by
  interval_cases d <;> exact ⟨by decide, by decide⟩

theorem readDigits_append (s rest : Str) (a : Nat) (seen : Bool)
    (hs : ∀ c ∈ s, isDecimal c = true) :
    readDigits 10 (s ++ rest) a seen
      = readDigits 10 rest (s.foldl decimalStep a) (seen || !s.isEmpty) := by
  induction s generalizing a seen with
  | nil => simp
  | cons c cs ih =>
    have hc := digitValue_of_isDecimal 10 c (hs c (by simp))
    have hcs : ∀ x ∈ cs, isDecimal x = true := fun x hx => hs x (by simp [hx])
    simp only [List.cons_append, readDigits, hc, List.foldl_cons, List.append_eq]
    rw [ih _ _ hcs]
    simp [decimalStep]

theorem natDigitsAux_append (fuel n : Nat) (acc r : Str) :
    natDigitsAux fuel n (acc ++ r) = natDigitsAux fuel n acc ++ r := by
  induction fuel generalizing n acc with
  | zero => simp [natDigitsAux]
  | succ k ih =>
    simp only [natDigitsAux]
    split
    · simp
    · rw [← ih]; simp

theorem natDigitsAux_isDecimal (fuel n : Nat) (acc : Str)
    (hacc : ∀ c ∈ acc, isDecimal c = true) :
    ∀ c ∈ natDigitsAux fuel n acc, isDecimal c = true := by
  induction fuel generalizing n acc with
  | zero => simpa [natDigitsAux] using hacc
  | succ k ih =>
    simp only [natDigitsAux]
    split
    · rename_i hn
      intro c hc
      rcases List.mem_cons.mp hc with rfl | h
      · exact (digitChar_spec n hn).1
      · exact hacc c h
    · apply ih
      intro c hc
      rcases List.mem_cons.mp hc with rfl | h
      · exact (digitChar_spec (n % 10) (Nat.mod_lt _ (by decide))).1
      · exact hacc c h

theorem natDigitsAux_foldl (fuel n : Nat) (acc : Str) (h : n < fuel) :
    (natDigitsAux fuel n acc).foldl decimalStep 0 = acc.foldl decimalStep n := by
  induction fuel generalizing n acc with
  | zero => omega
  | succ k ih =>
    simp only [natDigitsAux]
    split
    · rename_i hn
      simp [decimalStep, (digitChar_spec n hn).2]
    · rename_i hn
      rw [ih (n / 10) _ (by omega)]
      simp only [List.foldl_cons, decimalStep,
        (digitChar_spec (n % 10) (Nat.mod_lt _ (by decide))).2]
      congr 1
      omega

theorem natDigitsAux_ne_nil (fuel n : Nat) (acc : Str) (h : n < fuel) :
    natDigitsAux fuel n acc ≠ [] := by
  induction fuel generalizing n acc with
  | zero => omega
  | succ k ih =>
    simp only [natDigitsAux]
    split
    · simp
    · exact ih _ _ (by omega)

theorem natToString_isDecimal (n : Nat) : ∀ c ∈ natToString n, isDecimal c = true :=
  natDigitsAux_isDecimal _ _ _ (by simp)

theorem natToString_ne_nil (n : Nat) : natToString n ≠ [] :=
  natDigitsAux_ne_nil _ _ _ (by omega)

theorem decimalValue_natToString (n : Nat) : decimalValue (natToString n) = n := by
  simp [decimalValue, natToString, natDigitsAux_foldl (n + 1) n [] (by omega)]

theorem isWhiteSpace_of_isDecimal (c : Char) (h : isDecimal c = true) :
    isWhiteSpace c = false := by
  simp only [isDecimal, Bool.and_eq_true, decide_eq_true_eq] at h
  simp only [isWhiteSpace, Bool.or_eq_false_iff, Bool.and_eq_false_imp, decide_eq_false_iff_not,
    decide_eq_true_eq]
  omega

theorem ne_of_isDecimal (c x : Char) (h : isDecimal c = true) (hx : isDecimal x = false) :
    c ≠ x := by
  rintro rfl
  simp [h] at hx

theorem trimStart_decimal (s : Str) (hs : ∀ c ∈ s, isDecimal c = true) : trimStart s = s := by
  cases s with
  | nil => rfl
  | cons c cs => simp [trimStart, isWhiteSpace_of_isDecimal c (hs c (by simp))]

theorem parseUnsigned_decimal (s : Str) (hs : ∀ c ∈ s, isDecimal c = true) :
    parseUnsigned s = readDigits 10 s 0 false := by
  unfold parseUnsigned
  split
  · exact absurd (hs 'x' (by simp)) (by decide)
  · exact absurd (hs 'X' (by simp)) (by decide)
  · rfl

theorem readDigits_decimal (s : Str) (hne : s ≠ []) (hs : ∀ c ∈ s, isDecimal c = true) :
    readDigits 10 s 0 false = some (decimalValue s) := by
  have h := readDigits_append s [] 0 false hs
  simp only [List.append_nil] at h
  rw [h]
  cases s with
  | nil => exact absurd rfl hne
  | cons c cs => simp [readDigits, decimalValue]

theorem parseInt_decimal (s : Str) (hne : s ≠ []) (hs : ∀ c ∈ s, isDecimal c = true) :
    parseInt s = Num.ofInt (decimalValue s : Int) := by
  unfold parseInt
  rw [trimStart_decimal s hs]
  split
  · exact absurd (hs '-' (by simp)) (by decide)
  · exact absurd (hs '+' (by simp)) (by decide)
  · rw [parseUnsigned_decimal s hs, readDigits_decimal s hne hs]

theorem parseInt_nil : parseInt [] = .nan := by decide

theorem splitColon_decimal (s : Str) (hs : ∀ c ∈ s, isDecimal c = true) :
    splitColon s = (s, []) := by
  induction s with
  | nil => rfl
  | cons c cs ih =>
    have hc : c ≠ ':' := ne_of_isDecimal c ':' (hs c (by simp)) (by decide)
    simp [splitColon, hc, ih (fun x hx => hs x (by simp [hx]))]

theorem splitColon_append (a b : Str) (ha : ∀ c ∈ a, isDecimal c = true) :
    splitColon (a ++ ':' :: b) = (a, (splitColon b).1 :: (splitColon b).2) := by
  induction a with
  | nil => simp [splitColon]
  | cons c cs ih =>
    have hc : c ≠ ':' := ne_of_isDecimal c ':' (ha c (by simp)) (by decide)
    simp [splitColon, hc, ih (fun x hx => ha x (by simp [hx]))]

/-! ## Lemmas on rounding -/

theorem two_pow_53 : (2 : Nat) ^ 53 = 9007199254740992 := by norm_num

theorem nearestDouble_of_le (n : Nat) (h : n ≤ 2 ^ 53) : nearestDouble n = some n := by
  rcases Nat.lt_or_ge n (2 ^ 53) with hlt | hge
  · rw [nearestDouble, if_pos hlt]
  · have hn : n = 2 ^ 53 := Nat.le_antisymm h hge
    subst hn
    decide

/-- Integers of magnitude at most `2 ^ 53` are their own number value. -/
theorem Num.ofInt_of_le (z : Int) (hlo : -(2 ^ 53 : Int) ≤ z) (hhi : z ≤ (2 ^ 53 : Int)) :
    Num.ofInt z = .int z := by
  cases z with
  | ofNat n =>
    have hn : n ≤ 2 ^ 53 := by
      have : ((n : Nat) : Int) ≤ ((2 ^ 53 : Nat) : Int) := by push_cast; exact hhi
      exact Int.ofNat_le.mp this
    simp only [Num.ofInt, nearestDouble_of_le n hn]
    rfl
  | negSucc n =>
    have hn : n + 1 ≤ 2 ^ 53 := by
      have h1 : Int.negSucc n = -((n + 1 : Nat) : Int) := rfl
      rw [h1] at hlo
      have : ((n + 1 : Nat) : Int) ≤ ((2 ^ 53 : Nat) : Int) := by push_cast at hlo ⊢; omega
      exact Int.ofNat_le.mp this
    simp only [Num.ofInt, nearestDouble_of_le (n + 1) hn]
    rfl

theorem Num.ofInt_natCast (n : Nat) (h : n ≤ 2 ^ 53) : Num.ofInt (n : Int) = .int (n : Int) := by
  apply Num.ofInt_of_le
  · have : (0 : Int) ≤ (n : Int) := Int.ofNat_nonneg n
    have h2 : (0 : Int) ≤ 2 ^ 53 := by norm_num
    omega
  · exact_mod_cast h

theorem log2Aux_le (fuel n k : Nat) (h : n < 2 ^ (k + 1)) : log2Aux fuel n ≤ k := by
  induction fuel generalizing n k with
  | zero => simp [log2Aux]
  | succ f ih =>
    simp only [log2Aux]
    split
    · omega
    · rename_i hn
      cases k with
      | zero => simp at h; omega
      | succ j =>
        have h2 : n / 2 < 2 ^ (j + 1) := by
          rw [pow_succ] at h
          omega
        have := ih (n / 2) j h2
        omega

theorem two_pow_log2Aux_le (fuel n : Nat) (h : n ≠ 0) : 2 ^ log2Aux fuel n ≤ n := by
  induction fuel generalizing n with
  | zero => simp [log2Aux]; omega
  | succ f ih =>
    simp only [log2Aux]
    split
    · simp; omega
    · rename_i hn
      have h2 : n / 2 ≠ 0 := by omega
      have := ih (n / 2) h2
      rw [pow_succ]
      omega

theorem le_roundHalfEven (p q : Nat) : p / q ≤ roundHalfEven p q := by
  unfold roundHalfEven
  split
  · exact Nat.le_refl _
  · split
    · omega
    · split <;> omega

theorem roundHalfEven_sixty (p : Nat) : roundHalfEven p 60 * 60 ≤ p + 30 := by
  unfold roundHalfEven
  split
  · omega
  · split
    · omega
    · split <;> omega

theorem nearestDouble_pos (n v : Nat) (hn : 0 < n) (h : nearestDouble n = some v) : 0 < v := by
  unfold nearestDouble at h
  split at h
  · simp only [Option.some.injEq] at h
    omega
  · simp only at h
    split at h
    · simp only [Option.some.injEq] at h
      subst h
      have h1 : 2 ^ (log2 n - 52) ≤ n :=
        le_trans (Nat.pow_le_pow_right (by decide) (Nat.sub_le _ _))
          (two_pow_log2Aux_le n n (by omega))
      have h2 : 0 < 2 ^ (log2 n - 52) := Nat.two_pow_pos _
      have h3 : 1 ≤ n / 2 ^ (log2 n - 52) := (Nat.le_div_iff_mul_le h2).mpr (by omega)
      have h4 := le_roundHalfEven n (2 ^ (log2 n - 52))
      exact Nat.mul_pos (by omega) h2
    · exact absurd h (by simp)

/-- A number value has the sign of the integer it rounds. -/
theorem Num.ge_ofInt_zero (z : Int) : Num.ge (Num.ofInt z) (.int 0) = decide (0 ≤ z) := by
  cases z with
  | ofNat n =>
    have h0 : (0 : Int) ≤ Int.ofNat n := Int.ofNat_nonneg n
    simp only [Num.ofInt, decide_eq_true h0]
    cases hv : nearestDouble n with
    | none => rfl
    | some v =>
      simp only [Num.ge, decide_eq_true_eq]
      exact Int.ofNat_nonneg v
  | negSucc n =>
    have h0 : ¬ (0 : Int) ≤ Int.negSucc n := by
      have := Int.negSucc_lt_zero n
      omega
    simp only [Num.ofInt, decide_eq_false h0]
    cases hv : nearestDouble (n + 1) with
    | none => rfl
    | some v =>
      have hpos := nearestDouble_pos (n + 1) v (by omega) hv
      simp only [Num.ge, decide_eq_false_iff_not]
      omega

theorem floorDiv60Nat_of_le (n : Nat) (h : n ≤ 2 ^ 53) : Num.floorDiv60Nat n = n / 60 := by
  unfold Num.floorDiv60Nat
  split
  · omega
  · rename_i hn
    have he : log2 (n / 60) ≤ 47 := by
      apply log2Aux_le
      rw [two_pow_53] at h
      have : (2 : Nat) ^ (47 + 1) = 281474976710656 := by norm_num
      omega
    simp only [show log2 (n / 60) ≤ 52 by omega, if_true]
    generalize hT : 2 ^ (52 - log2 (n / 60)) = T
    have hT32 : 32 ≤ T := by
      rw [← hT]
      calc 32 = 2 ^ 5 := by norm_num
        _ ≤ 2 ^ (52 - log2 (n / 60)) := Nat.pow_le_pow_right (by decide) (by omega)
    have hlo := le_roundHalfEven (n * T) 60
    have hhi := roundHalfEven_sixty (n * T)
    have hnT : n * T = 60 * (n / 60 * T) + n % 60 * T := by
      have := Nat.div_add_mod n 60
      calc n * T = (60 * (n / 60) + n % 60) * T := by rw [this]
        _ = 60 * (n / 60 * T) + n % 60 * T := by ring
    have hr : n % 60 * T ≤ 59 * T := Nat.mul_le_mul_right T (by omega)
    have hq : n / 60 * T ≤ n * T / 60 := by
      rw [Nat.le_div_iff_mul_le (by decide)]
      omega
    apply Nat.div_eq_of_lt_le
    · omega
    · rw [Nat.succ_mul]
      omega

/-- On sample integers up to `2 ^ 53` the search for the shortest decimal
gives the decimal expansion. -/
theorem shortestString_samples :
    shortestString 0 = "0".toList ∧ shortestString 7 = "7".toList ∧
    shortestString 60 = "60".toList ∧ shortestString 1500 = "1500".toList ∧
    shortestString 4503599627370497 = "4503599627370497".toList ∧
    shortestString 9007199254740991 = "9007199254740991".toList ∧
    shortestString 9007199254740992 = "9007199254740992".toList ∧
    shortestString 9000000000000000 = "9000000000000000".toList := by
  decide

theorem natNumToString_of_le (n : Nat) (h : n ≤ 2 ^ 53) : natNumToString n = natToString n := by
  rw [natNumToString, if_pos h]

/-- On a non-negative integer up to `2 ^ 53`, `minutesToTimeString` is the
reference `formatMinutes`. -/
theorem minutesToTimeString_natCast (n : Nat) (h : n ≤ 2 ^ 53) :
    minutesToTimeString (.int (n : Int)) = formatMinutes n := by
  have h1 : Num.floorDiv60 (.int (n : Int)) = .int ((n / 60 : Nat) : Int) := by
    show Num.int (Num.floorDiv60Nat n : Nat) = _
    rw [floorDiv60Nat_of_le n h]
  have h2 : Num.rem60 (.int (n : Int)) = .int ((n % 60 : Nat) : Int) := by
    simp only [Num.rem60, Num.int.injEq]
    exact (Int.ofNat_tmod n 60).symm
  have h3 : numToString (.int ((n / 60 : Nat) : Int)) = natToString (n / 60) := by
    show natNumToString (n / 60) = _
    exact natNumToString_of_le _ (by omega)
  have h4 : numToString (.int ((n % 60 : Nat) : Int)) = natToString (n % 60) := by
    show natNumToString (n % 60) = _
    exact natNumToString_of_le _ (by rw [two_pow_53]; omega)
  unfold minutesToTimeString
  simp only [h1, h2, h3, h4, formatMinutes]
  simp

/-! ## Lemmas on clock-time texts -/

/-- The value of `timeToMinutes` on a text made of a non-empty run of decimal
digits, a colon and a (possibly empty) run of decimal digits, when the minute
count stays within `2 ^ 53`. -/
theorem timeToMinutes_decimal (hs ms : Str) (hne : hs ≠ [])
    (hh : ∀ c ∈ hs, isDecimal c = true) (hm : ∀ c ∈ ms, isDecimal c = true)
    (hb : decimalValue hs * 60 + decimalValue ms ≤ 2 ^ 53) :
    timeToMinutes (some (hs ++ ':' :: ms))
      = .int ((decimalValue hs : Int) * 60 + (decimalValue ms : Int)) := by
  have hne2 : hs ++ ':' :: ms ≠ [] := by simp
  have hH : Num.ofInt (decimalValue hs : Int) = .int (decimalValue hs : Int) :=
    Num.ofInt_natCast _ (by omega)
  have hM : Num.ofInt (decimalValue ms : Int) = .int (decimalValue ms : Int) :=
    Num.ofInt_natCast _ (by omega)
  have hP : Num.ofInt ((decimalValue hs : Int) * 60)
      = .int ((decimalValue hs : Int) * 60) := by
    have := Num.ofInt_natCast (decimalValue hs * 60) (by omega)
    push_cast at this
    exact this
  have hS : Num.ofInt ((decimalValue hs : Int) * 60 + (decimalValue ms : Int))
      = .int ((decimalValue hs : Int) * 60 + (decimalValue ms : Int)) := by
    have := Num.ofInt_natCast (decimalValue hs * 60 + decimalValue ms) hb
    push_cast at this
    exact this
  simp only [timeToMinutes, hne2, if_false, split, splitColon_append hs ms hh,
    splitColon_decimal ms hm, List.map_cons, List.map_nil]
  rw [parseInt_decimal hs hne hh, hH]
  cases ms with
  | nil =>
    simp only [List.getElem?_cons_zero, List.getElem?_cons_succ, parseInt_nil, Num.ofUndefined,
      Num.orZero, Num.mul, Num.add, hP]
    have h0 : decimalValue ([] : Str) = 0 := rfl
    rw [h0] at hS
    exact hS
  | cons c cs =>
    rw [parseInt_decimal (c :: cs) (by simp) hm, hM]
    simp only [List.getElem?_cons_zero, List.getElem?_cons_succ, Num.ofUndefined, Num.orZero,
      Num.mul, Num.add, hP, hS]

/-- The value of `timeToMinutes` on a non-empty run of decimal digits, when
the minute count stays within `2 ^ 53`. -/
theorem timeToMinutes_decimal_hours (hs : Str) (hne : hs ≠ [])
    (hh : ∀ c ∈ hs, isDecimal c = true) (hb : decimalValue hs * 60 ≤ 2 ^ 53) :
    timeToMinutes (some hs) = .int ((decimalValue hs : Int) * 60) := by
  have hH : Num.ofInt (decimalValue hs : Int) = .int (decimalValue hs : Int) :=
    Num.ofInt_natCast _ (by omega)
  have hP : Num.ofInt ((decimalValue hs : Int) * 60)
      = .int ((decimalValue hs : Int) * 60) := by
    have := Num.ofInt_natCast (decimalValue hs * 60) hb
    push_cast at this
    exact this
  have hS : Num.ofInt ((decimalValue hs : Int) * 60 + 0)
      = .int ((decimalValue hs : Int) * 60) := by
    rw [Int.add_zero]
    exact hP
  simp only [timeToMinutes, hne, if_false, split, splitColon_decimal hs hh, List.map_cons,
    List.map_nil]
  rw [parseInt_decimal hs hne hh, hH]
  simp only [List.getElem?_cons_zero, List.getElem?_cons_succ, List.getElem?_nil,
    Num.ofUndefined, Num.orZero, Num.mul, Num.add, hP, hS]

theorem padStart2_isDecimal (s : Str) (hs : ∀ c ∈ s, isDecimal c = true) :
    ∀ c ∈ padStart2 s, isDecimal c = true := by
  intro c hc
  simp only [padStart2, List.mem_append, List.mem_replicate] at hc
  rcases hc with ⟨_, rfl⟩ | h
  · decide
  · exact hs c h

theorem decimalValue_padStart2 (s : Str) : decimalValue (padStart2 s) = decimalValue s := by
  have h : ∀ k : Nat, List.foldl decimalStep 0 (List.replicate k '0') = 0 := by
    intro k
    induction k with
    | zero => rfl
    | succ k ih => simpa [List.replicate_succ, decimalStep] using ih
  simp [decimalValue, padStart2, List.foldl_append, h]

/-- Parsing the reference text of a minute count up to `2 ^ 53` gives the
count back. -/
theorem timeToMinutes_formatMinutes (n : Nat) (h : n ≤ 2 ^ 53) :
    timeToMinutes (some (formatMinutes n)) = .int (n : Int) := by
  have hdm := Nat.div_add_mod n 60
  unfold formatMinutes
  rw [timeToMinutes_decimal _ _ (natToString_ne_nil _) (natToString_isDecimal _)
      (padStart2_isDecimal _ (natToString_isDecimal _))
      (by rw [decimalValue_padStart2, decimalValue_natToString, decimalValue_natToString]; omega),
    decimalValue_padStart2, decimalValue_natToString, decimalValue_natToString]
  congr 1
  omega

/-- Parsing a formatted non-negative minute count up to `2 ^ 53` gives the
count back. -/
theorem timeToMinutes_minutesToTimeString (n : Nat) (h : n ≤ 2 ^ 53) :
    timeToMinutes (some (minutesToTimeString (.int (n : Int)))) = .int (n : Int) := by
  rw [minutesToTimeString_natCast n h, timeToMinutes_formatMinutes n h]

theorem formatMinutes_ne_nil (n : Nat) : formatMinutes n ≠ [] := by
  simp [formatMinutes]

theorem formatMinutes_zero : formatMinutes 0 = "0:00".toList := by decide

theorem minutesToTimeString_zero : minutesToTimeString (.int 0) = "0:00".toList := by decide

theorem formatMinutes_eq_zero_iff (k : Nat) : formatMinutes k = "0:00".toList ↔ k = 0 := by
  constructor
  · intro h
    have h1 : splitColon (formatMinutes k)
        = (natToString (k / 60),
            [padStart2 (natToString (k % 60))]) := by
      unfold formatMinutes
      rw [splitColon_append _ _ (natToString_isDecimal _),
        splitColon_decimal _ (padStart2_isDecimal _ (natToString_isDecimal _))]
    have h2 : splitColon "0:00".toList = ("0".toList, ["00".toList]) := by decide
    rw [h, h2] at h1
    simp only [Prod.mk.injEq, List.cons.injEq, and_true] at h1
    have hq := congrArg decimalValue h1.1
    have hr := congrArg decimalValue h1.2
    rw [decimalValue_natToString] at hq
    rw [decimalValue_padStart2, decimalValue_natToString] at hr
    have hq0 : decimalValue "0".toList = 0 := by decide
    have hr0 : decimalValue "00".toList = 0 := by decide
    have := Nat.div_add_mod k 60
    omega
  · rintro rfl
    exact formatMinutes_zero

theorem decimalValue_lt (s : Str) (hs : ∀ c ∈ s, isDecimal c = true) :
    decimalValue s < 10 ^ s.length := by
  have h : ∀ (t : Str) (a b : Nat), (∀ c ∈ t, isDecimal c = true) → a < b →
      t.foldl decimalStep a < b * 10 ^ t.length := by
    intro t
    induction t with
    | nil => intro a b _ hab; simpa using hab
    | cons c cs ih =>
      intro a b ht hab
      have hc := ht c (by simp)
      simp only [isDecimal, Bool.and_eq_true, decide_eq_true_eq] at hc
      have := ih (decimalStep a c) (b * 10) (fun x hx => ht x (by simp [hx]))
        (by unfold decimalStep; omega)
      simp only [List.foldl_cons, List.length_cons, pow_succ]
      calc cs.foldl decimalStep (decimalStep a c) < b * 10 * 10 ^ cs.length := this
        _ = b * (10 ^ cs.length * 10) := by ring
  have := h s 0 1 hs (by decide)
  simpa [decimalValue] using this

/-! ## Clock-time parsing and formatting -/

/-- C3 (amended): `minutesToTimeString` round-trips with `timeToMinutes` on
the integers a number holds exactly: for every non-negative integer `n` up to
`2 ^ 53`, parsing the formatted text of `n` gives `n` back; and so for every
clock-time text (a non-empty run of decimal digits, a colon, two decimal
digits) whose minute count is at most `2 ^ 53`, in particular every such text
with one or two hour digits, formatting its minute count and parsing again
gives the same minute count. -/
theorem roundtrip_format_parse :
    (∀ n : Nat, n ≤ 2 ^ 53 →
      timeToMinutes (some (minutesToTimeString (.int (n : Int)))) = .int (n : Int)) ∧
    (∀ hs ms : Str, hs ≠ [] → (∀ c ∈ hs, isDecimal c = true) →
      (∀ c ∈ ms, isDecimal c = true) → ms.length = 2 →
      decimalValue hs * 60 + decimalValue ms ≤ 2 ^ 53 →
      timeToMinutes (some (minutesToTimeString (timeToMinutes (some (hs ++ ':' :: ms)))))
        = timeToMinutes (some (hs ++ ':' :: ms))) ∧
    (∀ hs ms : Str, hs ≠ [] → (∀ c ∈ hs, isDecimal c = true) →
      (∀ c ∈ ms, isDecimal c = true) → ms.length = 2 → hs.length ≤ 2 →
      timeToMinutes (some (minutesToTimeString (timeToMinutes (some (hs ++ ':' :: ms)))))
        = timeToMinutes (some (hs ++ ':' :: ms))) := by
  have key : ∀ hs ms : Str, hs ≠ [] → (∀ c ∈ hs, isDecimal c = true) →
      (∀ c ∈ ms, isDecimal c = true) →
      decimalValue hs * 60 + decimalValue ms ≤ 2 ^ 53 →
      timeToMinutes (some (minutesToTimeString (timeToMinutes (some (hs ++ ':' :: ms)))))
        = timeToMinutes (some (hs ++ ':' :: ms)) := by
    intro hs ms hne hh hm hb
    rw [timeToMinutes_decimal hs ms hne hh hm hb]
    have h := timeToMinutes_minutesToTimeString (decimalValue hs * 60 + decimalValue ms) hb
    push_cast at h
    exact h
  refine ⟨timeToMinutes_minutesToTimeString, ?_, ?_⟩
  · intro hs ms hne hh hm _ hb
    exact key hs ms hne hh hm hb
  · intro hs ms hne hh hm hlen hlen2
    apply key hs ms hne hh hm
    have h1 := decimalValue_lt hs hh
    have h2 := decimalValue_lt ms hm
    rw [hlen] at h2
    have h3 : 10 ^ hs.length ≤ 10 ^ 2 := Nat.pow_le_pow_right (by decide) hlen2
    rw [two_pow_53]
    norm_num at h2 h3
    omega

theorem roundtrip_format_parse_witness :
    timeToMinutes (some (minutesToTimeString (timeToMinutes (some "09:05".toList))))
      = timeToMinutes (some "09:05".toList) ∧
    timeToMinutes (some "09:05".toList) = .int 545 ∧
    minutesToTimeString (.int 545) = "9:05".toList ∧
    timeToMinutes (some (minutesToTimeString (.int (9007199254740992 : Nat))))
      = .int (9007199254740992 : Nat) :=
  ⟨roundtrip_format_parse.2.2 "09".toList "05".toList (by decide) (by decide) (by decide)
    (by decide) (by decide), by decide, by decide,
    roundtrip_format_parse.1 9007199254740992 (by decide)⟩

/-- C3 (as stated) fails: 6e22 is a non-negative integer and a double;
`minutesToTimeString` prints its hour count 1e21 in exponent notation, giving
`1e+21:00`, and `timeToMinutes` reads the hours of that text as 1, so the round
trip gives 60. -/
theorem roundtrip_fails_at_6e22 :
    Num.ofInt 60000000000000000000000 = .int 60000000000000000000000 ∧
    minutesToTimeString (.int 60000000000000000000000) = "1e+21:00".toList ∧
    timeToMinutes (some (minutesToTimeString (.int 60000000000000000000000))) = .int 60 ∧
    timeToMinutes (some (minutesToTimeString (.int 60000000000000000000000)))
      ≠ .int 60000000000000000000000 := by
  decide

/-- C6 (amended): `timeToMinutes` gives 0 on the empty string and on
`undefined`; on the text of a natural number `h`, a colon and a minute value
`m` padded to two digits it gives `60 * h + m` as long as `60 * h + m` is at
most `2 ^ 53`, with no bound at 24 hours (so `25:00` gives 1500); on the text
of `h` alone it gives `60 * h` as long as that is at most `2 ^ 53`. -/
theorem timeToMinutes_spec :
    timeToMinutes (some []) = .int 0 ∧
    timeToMinutes none = .int 0 ∧
    (∀ h m : Nat, 60 * h + m ≤ 2 ^ 53 →
      timeToMinutes (some (natToString h ++ ':' :: padStart2 (natToString m)))
        = .int (60 * (h : Int) + (m : Int))) ∧
    timeToMinutes (some "25:00".toList) = .int 1500 ∧
    (∀ h : Nat, 60 * h ≤ 2 ^ 53 →
      timeToMinutes (some (natToString h)) = .int (60 * (h : Int))) := by
  refine ⟨by decide, by decide, ?_, by decide, ?_⟩
  · intro h m hb
    rw [timeToMinutes_decimal _ _ (natToString_ne_nil _) (natToString_isDecimal _)
        (padStart2_isDecimal _ (natToString_isDecimal _))
        (by rw [decimalValue_padStart2, decimalValue_natToString, decimalValue_natToString]
            omega),
      decimalValue_padStart2, decimalValue_natToString, decimalValue_natToString]
    congr 1
    omega
  · intro h hb
    rw [timeToMinutes_decimal_hours _ (natToString_ne_nil _) (natToString_isDecimal _)
        (by rw [decimalValue_natToString]; omega),
      decimalValue_natToString]
    congr 1
    omega

theorem timeToMinutes_spec_witness :
    timeToMinutes (some (natToString 25 ++ ':' :: padStart2 (natToString 0))) = .int 1500 ∧
    natToString 25 ++ ':' :: padStart2 (natToString 0) = "25:00".toList ∧
    timeToMinutes (some (natToString 150119987579016)) = .int 9007199254740960 :=
  ⟨(timeToMinutes_spec.2.2.1 25 0 (by decide)).trans (by decide), by decide,
    (timeToMinutes_spec.2.2.2.2 150119987579016 (by decide)).trans (by decide)⟩

/-- C6 (as stated) fails: with `h = 150119987579017` and `m = 1` the text is
`150119987579017:01` and `60 * h + m = 9007199254741021`, which lies above
`2 ^ 53` and is no double; the sum `hours * 60 + minutes` rounds to the even
neighbour and `timeToMinutes` returns 9007199254741020. -/
theorem timeToMinutes_rounds_above_2_53 :
    natToString 150119987579017 ++ ':' :: padStart2 (natToString 1)
      = "150119987579017:01".toList ∧
    timeToMinutes (some "150119987579017:01".toList) = .int 9007199254741020 ∧
    timeToMinutes (some (natToString 150119987579017 ++ ':' :: padStart2 (natToString 1)))
      ≠ .int (60 * (150119987579017 : Int) + 1) := by
  decide

/-! ## Daily hours -/

theorem Num.ofInt_ne_nan (z : Int) : Num.ofInt z ≠ .nan := by
  cases z with
  | ofNat n =>
    simp only [Num.ofInt]
    cases nearestDouble n <;> simp
  | negSucc n =>
    simp only [Num.ofInt]
    cases nearestDouble (n + 1) <;> simp

/-- On numbers other than `NaN`, `a > b` is the negation of `a <= b`. -/
theorem Num.gt_eq_not_le (a b : Num) (ha : a ≠ .nan) (hb : b ≠ .nan) :
    Num.gt a b = !Num.le a b := by
  cases a with
  | nan => exact absurd rfl ha
  | inf s =>
    cases b with
    | nan => exact absurd rfl hb
    | inf t => cases s <;> cases t <;> rfl
    | int y => cases s <;> rfl
  | int x =>
    cases b with
    | nan => exact absurd rfl hb
    | inf t => cases t <;> rfl
    | int y =>
      by_cases h : y < x
      · have h2 : ¬ x ≤ y := by omega
        simp [Num.gt, Num.le, h, h2]
      · have h2 : x ≤ y := by omega
        simp [Num.gt, Num.le, h, h2]

theorem Num.sub_ne_nan_of_gt (a b : Num) (h : Num.gt a b = true) : Num.sub a b ≠ .nan := by
  cases a with
  | nan => simp [Num.gt] at h
  | inf s =>
    cases b with
    | nan => simp [Num.gt] at h
    | inf t => cases s <;> cases t <;> simp [Num.gt, Num.sub] at h ⊢
    | int y => simp [Num.sub]
  | int x =>
    cases b with
    | nan => simp [Num.gt] at h
    | inf t => simp [Num.sub]
    | int y => exact Num.ofInt_ne_nan _

/-- With an integer break, the work minutes are at least 0 exactly when the
break does not exceed the span. -/
theorem Num.ge_sub_int (span : Num) (k : Int) (h : span ≠ .nan) :
    Num.ge (Num.sub span (.int k)) (.int 0) = !Num.gt (.int k) span := by
  cases span with
  | nan => exact absurd rfl h
  | inf s => cases s <;> rfl
  | int p =>
    simp only [Num.sub, Num.ge_ofInt_zero, Num.gt]
    by_cases hp : p < k
    · have h2 : ¬ (0 ≤ p - k) := by omega
      simp [hp, h2]
    · have h2 : 0 ≤ p - k := by omega
      simp [hp, h2]

theorem breakMinutes_ne_nan (v : Str) : breakMinutes v ≠ .nan := by
  unfold breakMinutes
  cases parseInt v <;> simp [Num.orZero]

/-- The refinement behind C1: on start and end texts that parse to a number
and an integer break, `calculateDailyHours` is the reference definition shown
on the page. -/
theorem calculateDailyHours_eq (d : DayEntry) (b : Banner) (k : Int)
    (hs : timeToMinutes (some d.startTime.value) ≠ .nan)
    (he : timeToMinutes (some d.endTime.value) ≠ .nan)
    (hb : breakMinutes d.breakDuration.value = .int k) :
    calculateDailyHours d b
      = (computeDailyMinutes d.startTime.value d.endTime.value
          (breakMinutes d.breakDuration.value)).onPage d b := by
  unfold calculateDailyHours computeDailyMinutes
  simp only [hb]
  by_cases hp : d.startTime.value ≠ [] ∧ d.endTime.value ≠ []
  · have hq : ¬ (d.startTime.value = [] ∨ d.endTime.value = []) := by tauto
    simp only [if_pos hp, if_neg hq]
    rw [Num.gt_eq_not_le _ _ he hs]
    cases hle : Num.le (timeToMinutes (some d.endTime.value))
        (timeToMinutes (some d.startTime.value)) with
    | true =>
      simp only [Bool.not_true, Bool.false_eq_true, if_false, if_true, DailyResult.onPage,
        minutesToTimeString_zero]
    | false =>
      have hgt : Num.gt (timeToMinutes (some d.endTime.value))
          (timeToMinutes (some d.startTime.value)) = true := by
        rw [Num.gt_eq_not_le _ _ he hs, hle]
        rfl
      have hspan := Num.sub_ne_nan_of_gt _ _ hgt
      rw [Num.ge_sub_int _ k hspan]
      cases hbr : Num.gt (.int k)
          (Num.sub (timeToMinutes (some d.endTime.value))
            (timeToMinutes (some d.startTime.value))) with
      | true =>
        simp only [Bool.not_false, Bool.not_true, Bool.false_eq_true, if_false, if_true,
          DailyResult.onPage, minutesToTimeString_zero]
      | false =>
        simp only [Bool.not_false, Bool.false_eq_true, if_false, if_true, DailyResult.onPage]
  · have hq : d.startTime.value = [] ∨ d.endTime.value = [] := by tauto
    simp only [if_neg hp, if_pos hq]
    rfl

theorem computeDailyMinutes_nonNegative (start end_ : Str) (k : Int)
    (hs : timeToMinutes (some start) ≠ .nan) (he : timeToMinutes (some end_) ≠ .nan) :
    (computeDailyMinutes start end_ (.int k)).NonNegative := by
  unfold computeDailyMinutes
  by_cases hq : start = [] ∨ end_ = []
  · simp [hq, DailyResult.NonNegative]
  · simp only [if_neg hq]
    cases hle : Num.le (timeToMinutes (some end_)) (timeToMinutes (some start)) with
    | true => simp [DailyResult.NonNegative]
    | false =>
      have hgt : Num.gt (timeToMinutes (some end_)) (timeToMinutes (some start)) = true := by
        rw [Num.gt_eq_not_le _ _ he hs, hle]
        rfl
      have hspan := Num.sub_ne_nan_of_gt _ _ hgt
      have hge := Num.ge_sub_int _ k hspan
      cases hbr : Num.gt (.int k)
          (Num.sub (timeToMinutes (some end_)) (timeToMinutes (some start))) with
      | true => simp [DailyResult.NonNegative]
      | false =>
        rw [hbr] at hge
        simp only [Bool.false_eq_true, if_false, DailyResult.NonNegative]
        cases hw : Num.sub (Num.sub (timeToMinutes (some end_)) (timeToMinutes (some start)))
            (.int k) with
        | nan => rw [hw] at hge; simp [Num.ge] at hge
        | inf s => rw [hw] at hge; cases s <;> simp [Num.ge] at hge ⊢
        | int m => rw [hw] at hge; simpa [Num.ge] using hge

/-- Within `2 ^ 53` the differences of the reference definition are the exact
integer differences. -/
theorem computeDailyMinutes_exact (start end_ : Str) (x y k : Int)
    (hs : timeToMinutes (some start) = .int x) (he : timeToMinutes (some end_) = .int y)
    (hs0 : start ≠ []) (he0 : end_ ≠ [])
    (hx : 0 ≤ x) (hxy : x < y) (hy : y ≤ 2 ^ 53) (hk : 0 ≤ k) (hky : k ≤ y - x) :
    computeDailyMinutes start end_ (.int k)
      = { minutes := some (.int (y - x - k)), error := none } := by
  have hq : ¬ (start = [] ∨ end_ = []) := by tauto
  have h1 : Num.sub (.int y) (.int x) = .int (y - x) :=
    Num.ofInt_of_le _ (by have : (0 : Int) ≤ 2 ^ 53 := by norm_num
                          omega) (by omega)
  have h2 : Num.sub (.int (y - x)) (.int k) = .int (y - x - k) :=
    Num.ofInt_of_le _ (by have : (0 : Int) ≤ 2 ^ 53 := by norm_num
                          omega) (by omega)
  have h3 : Num.le (.int y) (.int x) = false := by
    have : ¬ y ≤ x := by omega
    simp [Num.le, this]
  have h4 : Num.gt (.int k) (.int (y - x)) = false := by
    have : ¬ y - x < k := by omega
    simp [Num.gt, this]
  unfold computeDailyMinutes
  simp only [if_neg hq, hs, he, h1, h2, h3, h4, Bool.false_eq_true, if_false]

/-- What `calculateDailyHours` writes to the daily-hours input is empty or
the reference text of a non-negative minute count, for start and end times
from 0 to `2 ^ 53` minutes and a non-negative integer break. -/
theorem calculateDailyHours_shows (d : DayEntry) (b : Banner) (x y k : Int)
    (hs : timeToMinutes (some d.startTime.value) = .int x)
    (he : timeToMinutes (some d.endTime.value) = .int y)
    (hb : breakMinutes d.breakDuration.value = .int k)
    (hx : 0 ≤ x) (hy : y ≤ 2 ^ 53) (hk : 0 ≤ k) :
    ∃ m : Option Nat, (calculateDailyHours d b).1.dailyHours.value = displayMinutes m := by
  rw [calculateDailyHours_eq d b k (by rw [hs]; simp) (by rw [he]; simp) hb, hb]
  by_cases hq : d.startTime.value = [] ∨ d.endTime.value = []
  · refine ⟨none, ?_⟩
    simp [computeDailyMinutes, hq, DailyResult.onPage, displayMinutes]
  · by_cases hxy : x < y
    · by_cases hky : k ≤ y - x
      · rw [computeDailyMinutes_exact _ _ x y k hs he (by tauto) (by tauto) hx hxy hy hk hky]
        obtain ⟨j, hj⟩ := Int.eq_ofNat_of_zero_le (show 0 ≤ y - x - k by omega)
        have hj2 : j ≤ 2 ^ 53 := by
          have : ((j : Nat) : Int) ≤ ((2 ^ 53 : Nat) : Int) := by
            push_cast
            omega
          exact Int.ofNat_le.mp this
        refine ⟨some j, ?_⟩
        simp only [DailyResult.onPage, removeError, displayMinutes, hj]
        exact minutesToTimeString_natCast j hj2
      · refine ⟨some 0, ?_⟩
        have h1 : Num.sub (.int y) (.int x) = .int (y - x) :=
          Num.ofInt_of_le _ (by have : (0 : Int) ≤ 2 ^ 53 := by norm_num
                                omega) (by omega)
        have h3 : Num.le (.int y) (.int x) = false := by
          have : ¬ y ≤ x := by omega
          simp [Num.le, this]
        have h4 : Num.gt (.int k) (.int (y - x)) = true := by
          have : y - x < k := by omega
          simp [Num.gt, this]
        simp only [computeDailyMinutes, if_neg hq, hs, he, h1, h3, h4, Bool.false_eq_true,
          if_false, if_true, DailyResult.onPage, showFieldError, displayMinutes,
          minutesToTimeString_zero, formatMinutes_zero]
    · refine ⟨some 0, ?_⟩
      have h3 : Num.le (.int y) (.int x) = true := by
        have : y ≤ x := by omega
        simp [Num.le, this]
      simp only [computeDailyMinutes, if_neg hq, hs, he, h3, if_true, DailyResult.onPage,
        showFieldError, displayMinutes, minutesToTimeString_zero, formatMinutes_zero]

/-- C1: on every start text and end text that parse to a number and every
integer break (the break text read as `parseInt(text) || 0`),
`calculateDailyHours` equals the reference definition: unset with no error
when start or end is absent; else 0 with `EndNotAfterStart` when
`parse(end) <= parse(start)`; else 0 with `BreakExceedsSpan` when the break
exceeds `parse(end) - parse(start)`; else `parse(end) - parse(start) - break`
with no error.  The minutes are never negative.  The differences are those of
the language, and they are the exact integer differences for times from 0 to
`2 ^ 53` minutes.  `09:00`, `17:00`, 30 gives 450 with no error, and a break
equal to the span gives 0 with no error. -/
theorem calculateDailyHours_refines (d : DayEntry) (b : Banner) (k : Int)
    (hs : timeToMinutes (some d.startTime.value) ≠ .nan)
    (he : timeToMinutes (some d.endTime.value) ≠ .nan)
    (hb : breakMinutes d.breakDuration.value = .int k) :
    calculateDailyHours d b
      = (computeDailyMinutes d.startTime.value d.endTime.value
          (breakMinutes d.breakDuration.value)).onPage d b ∧
    (computeDailyMinutes d.startTime.value d.endTime.value
      (breakMinutes d.breakDuration.value)).NonNegative ∧
    (∀ x y : Int, timeToMinutes (some d.startTime.value) = .int x →
      timeToMinutes (some d.endTime.value) = .int y →
      d.startTime.value ≠ [] → d.endTime.value ≠ [] →
      0 ≤ x → x < y → y ≤ 2 ^ 53 → 0 ≤ k → k ≤ y - x →
      computeDailyMinutes d.startTime.value d.endTime.value
          (breakMinutes d.breakDuration.value)
        = { minutes := some (.int (y - x - k)), error := none }) ∧
    computeDailyMinutes "09:00".toList "17:00".toList (breakMinutes "30".toList)
      = { minutes := some (.int 450), error := none } ∧
    computeDailyMinutes "09:00".toList "09:30".toList (breakMinutes "30".toList)
      = { minutes := some (.int 0), error := none } := by
  refine ⟨calculateDailyHours_eq d b k hs he hb, ?_, ?_, by decide, by decide⟩
  · rw [hb]
    exact computeDailyMinutes_nonNegative _ _ k hs he
  · intro x y hx hy hs0 he0 hx0 hxy hy2 hk hky
    rw [hb]
    exact computeDailyMinutes_exact _ _ x y k hx hy hs0 he0 hx0 hxy hy2 hk hky

theorem calculateDailyHours_refines_witness :
    calculateDailyHours (sampleDay "09:00".toList "17:00".toList "30".toList) hiddenBanner
      = ({ sampleDay "09:00".toList "17:00".toList "30".toList with
            dailyHours := { value := "7:30".toList, defaultValue := [] }
            borderColor := colorBorder }, hiddenBanner) ∧
    computeDailyMinutes "09:00".toList "17:00".toList (breakMinutes "30".toList)
      = { minutes := some (.int 450), error := none } :=
  ⟨((calculateDailyHours_refines (sampleDay "09:00".toList "17:00".toList "30".toList)
      hiddenBanner 30 (by decide) (by decide) (by decide)).1).trans (by decide),
    (calculateDailyHours_refines (sampleDay "09:00".toList "17:00".toList "30".toList)
      hiddenBanner 30 (by decide) (by decide) (by decide)).2.2.2.1⟩

/-! ## Per-day validation -/

theorem validateTimeInput_false_iff (d : DayEntry) (b : Banner) :
    (validateTimeInput d b).2 = false ↔
      (d.startTime.value ≠ [] ∧ d.endTime.value ≠ [] ∧
        Num.le (timeToMinutes (some d.endTime.value)) (timeToMinutes (some d.startTime.value))
          = true) := by
  unfold validateTimeInput
  by_cases hp : d.startTime.value ≠ [] ∧ d.endTime.value ≠ []
  · simp only [if_pos hp]
    by_cases hle : Num.le (timeToMinutes (some d.endTime.value))
        (timeToMinutes (some d.startTime.value)) = true
    · simp [hle, hp.1, hp.2]
    · simp [hle, hp.1, hp.2]
  · simp only [if_neg hp]
    constructor
    · intro h
      exact absurd h (by simp)
    · intro h
      exact absurd ⟨h.1, h.2.1⟩ hp

theorem reportsEndNotAfterStart_iff (d : DayEntry) (b : Banner)
    (hs : timeToMinutes (some d.startTime.value) ≠ .nan)
    (he : timeToMinutes (some d.endTime.value) ≠ .nan) :
    ReportsEndNotAfterStart d b ↔
      (d.startTime.value ≠ [] ∧ d.endTime.value ≠ [] ∧
        Num.le (timeToMinutes (some d.endTime.value)) (timeToMinutes (some d.startTime.value))
          = true) := by
  unfold ReportsEndNotAfterStart calculateDailyHours
  by_cases hp : d.startTime.value ≠ [] ∧ d.endTime.value ≠ []
  · simp only [if_pos hp]
    rw [Num.gt_eq_not_le _ _ he hs]
    cases hle : Num.le (timeToMinutes (some d.endTime.value))
        (timeToMinutes (some d.startTime.value)) with
    | true => simp [hp.1, hp.2]
    | false =>
      simp only [Bool.not_false, if_true]
      split
      · simp [removeError, showFieldError, colorBorder, colorError]
      · simp [showFieldError, showError, DayError.message]
  · simp only [if_neg hp]
    constructor
    · intro h
      simp [showFieldError] at h
    · intro h
      exact absurd ⟨h.1, h.2.1⟩ hp

/-- C5: for every start text and end text that parse to a number and every
break, `validateTimeInput` reports a failure if and only if
`calculateDailyHours` reports `EndNotAfterStart` for the same start and end,
that is exactly when both are present and `parse(end) <= parse(start)`; in
particular it reports no failure when either is absent. -/
theorem validateTimeInput_mirrors (d : DayEntry) (b : Banner)
    (hs : timeToMinutes (some d.startTime.value) ≠ .nan)
    (he : timeToMinutes (some d.endTime.value) ≠ .nan) :
    ((validateTimeInput d b).2 = false ↔ ReportsEndNotAfterStart d b) ∧
    ((validateTimeInput d b).2 = false ↔
      (d.startTime.value ≠ [] ∧ d.endTime.value ≠ [] ∧
        Num.le (timeToMinutes (some d.endTime.value)) (timeToMinutes (some d.startTime.value))
          = true)) ∧
    ((d.startTime.value = [] ∨ d.endTime.value = []) → (validateTimeInput d b).2 = true) := by
  refine ⟨?_, validateTimeInput_false_iff d b, ?_⟩
  · rw [validateTimeInput_false_iff d b, reportsEndNotAfterStart_iff d b hs he]
  · intro h
    cases hv : (validateTimeInput d b).2 with
    | true => rfl
    | false =>
      have := (validateTimeInput_false_iff d b).mp hv
      rcases h with h | h
      · exact absurd h this.1
      · exact absurd h this.2.1

theorem validateTimeInput_mirrors_witness :
    (validateTimeInput (sampleDay "09:00".toList "08:00".toList "0".toList) hiddenBanner).2
      = false ∧
    ReportsEndNotAfterStart (sampleDay "09:00".toList "08:00".toList "0".toList) hiddenBanner ∧
    (validateTimeInput (sampleDay "09:00".toList [] "0".toList) hiddenBanner).2 = true :=
  ⟨by decide,
    ((validateTimeInput_mirrors (sampleDay "09:00".toList "08:00".toList "0".toList)
      hiddenBanner (by decide) (by decide)).1).mp (by decide),
    (validateTimeInput_mirrors (sampleDay "09:00".toList [] "0".toList)
      hiddenBanner (by decide) (by decide)).2.2 (Or.inr rfl)⟩

/-- Outside the texts that parse: with start text `abc` and end text `10:00`
the start time is `NaN`, `calculateDailyHours` shows `0:00` with
`EndNotAfterStart` (its test `end > start` fails) and `validateTimeInput`
reports no failure (its test `end <= start` fails too). -/
theorem unparsable_start_text :
    timeToMinutes (some "abc".toList) = .nan ∧
    ReportsEndNotAfterStart (sampleDay "abc".toList "10:00".toList "0".toList) hiddenBanner ∧
    (validateTimeInput (sampleDay "abc".toList "10:00".toList "0".toList) hiddenBanner).2
      = true := by
  decide

/-! ## Weekly totals -/

theorem weekTotal_cons (m : Option Nat) (ms : List (Option Nat)) :
    weekTotal (m :: ms) = m.getD 0 + weekTotal ms := by
  simp [weekTotal]

theorem totalMinutes_fold (ms : List (Option Nat)) (days : List DayEntry) (a : Nat)
    (h : ShowsMinutes days ms) (hb : a + weekTotal ms ≤ 2 ^ 53) :
    days.foldl
        (fun total d =>
          if d.dailyHours.value ≠ [] then
            Num.add total (timeToMinutes (some d.dailyHours.value))
          else total)
        (.int (a : Int))
      = .int ((a + weekTotal ms : Nat) : Int) := by
  induction ms generalizing days a with
  | nil =>
    cases days with
    | nil => simp [weekTotal]
    | cons d ds => simp [ShowsMinutes] at h
  | cons m ms ih =>
    cases days with
    | nil => simp [ShowsMinutes] at h
    | cons d ds =>
      simp only [ShowsMinutes, List.map_cons, List.cons.injEq] at h
      obtain ⟨hd, hds⟩ := h
      rw [weekTotal_cons] at hb ⊢
      simp only [List.foldl_cons, hd]
      cases m with
      | none =>
        simp only [displayMinutes, ne_eq, not_true_eq_false, if_false]
        rw [ih ds a hds (by simpa using hb)]
        simp
      | some k =>
        simp only [Option.getD_some] at hb ⊢
        have hk : k ≤ 2 ^ 53 := by omega
        have hsum : Num.add (.int (a : Int)) (.int (k : Int)) = .int ((a + k : Nat) : Int) := by
          have := Num.ofInt_natCast (a + k) (by omega)
          push_cast at this ⊢
          exact this
        simp only [displayMinutes, ne_eq, formatMinutes_ne_nil, not_false_eq_true, if_true,
          timeToMinutes_formatMinutes k hk, hsum]
        rw [ih ds (a + k) hds (by omega)]
        congr 2
        omega

theorem totalMinutes_eq (ms : List (Option Nat)) (days : List DayEntry)
    (h : ShowsMinutes days ms) (hb : weekTotal ms ≤ 2 ^ 53) :
    totalMinutes days = .int (weekTotal ms : Int) := by
  have := totalMinutes_fold ms days 0 h (by omega)
  simpa [totalMinutes] using this

/-- C2 (amended): when every day's daily-hours text is empty or the formatted
text of a non-negative minute count (`0:00` for an invalid day) and the sum of
those counts is at most `2 ^ 53`, `calculateTotals` displays the formatted sum
of the set days' minutes as total and the formatted `max(0, total - 2400)` as
overtime (the subtraction of natural numbers stops at 0). -/
theorem calculateTotals_spec (s : Form) (ms : List (Option Nat))
    (h : ShowsMinutes s.dayEntries ms) (hb : weekTotal ms ≤ 2 ^ 53) :
    (calculateTotals s).totalHours = formatMinutes (weekTotal ms) ∧
    (calculateTotals s).overtimeHours = formatMinutes (weekTotal ms - 2400) ∧
    (calculateTotals s).totalHours = minutesToTimeString (.int (weekTotal ms : Int)) ∧
    (calculateTotals s).overtimeHours
      = minutesToTimeString (.int (max 0 ((weekTotal ms : Int) - 2400))) := by
  have hsub : Num.sub (.int (weekTotal ms : Int)) (.int 2400)
      = .int ((weekTotal ms : Int) - 2400) :=
    Num.ofInt_of_le _
      (by have : (0 : Int) ≤ 2 ^ 53 := by norm_num
          have : (0 : Int) ≤ (weekTotal ms : Int) := Int.ofNat_nonneg _
          rw [show (2 ^ 53 : Int) = 9007199254740992 by norm_num]
          omega)
      (by have : ((weekTotal ms : Nat) : Int) ≤ ((2 ^ 53 : Nat) : Int) := Int.ofNat_le.mpr hb
          push_cast at this
          omega)
  have htot : (calculateTotals s).totalHours = minutesToTimeString (.int (weekTotal ms : Int)) := by
    simp only [calculateTotals, totalMinutes_eq ms s.dayEntries h hb]
  have hover : (calculateTotals s).overtimeHours
      = minutesToTimeString (.int (max 0 ((weekTotal ms : Int) - 2400))) := by
    simp only [calculateTotals, totalMinutes_eq ms s.dayEntries h hb, hsub, Num.gt]
    by_cases hlt : (0 : Int) < (weekTotal ms : Int) - 2400
    · simp only [hlt, decide_True, if_true]
      rw [max_eq_right (le_of_lt hlt)]
    · simp only [hlt, decide_False, Bool.false_eq_true, if_false]
      rw [max_eq_left (by omega)]
      exact minutesToTimeString_zero.symm
  refine ⟨?_, ?_, htot, hover⟩
  · rw [htot, minutesToTimeString_natCast _ hb]
  · rw [hover]
    have hcast : max 0 ((weekTotal ms : Int) - 2400) = ((weekTotal ms - 2400 : Nat) : Int) := by
      omega
    rw [hcast, minutesToTimeString_natCast _ (by omega)]

theorem calculateTotals_spec_witness :
    ShowsMinutes (List.replicate 5 (dayShowing "8:20".toList)) (List.replicate 5 (some 500)) ∧
    weekTotal (List.replicate 5 (some 500)) = 2500 ∧
    (calculateTotals (sampleForm [] [] [] (List.replicate 5 (dayShowing "8:20".toList)))).totalHours
      = "41:40".toList ∧
    (calculateTotals
        (sampleForm [] [] [] (List.replicate 5 (dayShowing "8:20".toList)))).overtimeHours
      = "1:40".toList :=
  ⟨by decide, by decide,
    (calculateTotals_spec (sampleForm [] [] [] (List.replicate 5 (dayShowing "8:20".toList)))
      (List.replicate 5 (some 500)) (by decide) (by decide)).1.trans (by decide),
    (calculateTotals_spec (sampleForm [] [] [] (List.replicate 5 (dayShowing "8:20".toList)))
      (List.replicate 5 (some 500)) (by decide) (by decide)).2.1.trans (by decide)⟩

/-- C2 (as stated) fails: two days show `150119987579016:32` (the formatted
text of `2 ^ 53` minutes) and `0:01`.  The sum of the minutes is `2 ^ 53 + 1`,
whose formatted text is `150119987579016:33`; the running total of
`calculateTotals` is a double, `2 ^ 53 + 1` rounds to `2 ^ 53`, and the total
displayed is `150119987579016:32`. -/
theorem calculateTotals_rounds_above_2_53 :
    ShowsMinutes [dayShowing "150119987579016:32".toList, dayShowing "0:01".toList]
      [some 9007199254740992, some 1] ∧
    weekTotal [some 9007199254740992, some 1] = 9007199254740993 ∧
    formatMinutes 9007199254740993 = "150119987579016:33".toList ∧
    (calculateTotals (sampleForm [] [] []
        [dayShowing "150119987579016:32".toList, dayShowing "0:01".toList])).totalHours
      = "150119987579016:32".toList ∧
    (calculateTotals (sampleForm [] [] []
        [dayShowing "150119987579016:32".toList, dayShowing "0:01".toList])).totalHours
      ≠ formatMinutes (weekTotal [some 9007199254740992, some 1]) := by
  decide

/-! ## Form validation -/

theorem hasWorkingHours_fold (days : List DayEntry) (acc : Bool) :
    days.foldl
        (fun has d =>
          if d.dailyHours.value ≠ [] ∧ d.dailyHours.value ≠ "0:00".toList then true else has)
        acc
      = (acc || days.any fun d =>
          decide (d.dailyHours.value ≠ [] ∧ d.dailyHours.value ≠ "0:00".toList)) := by
  induction days generalizing acc with
  | nil => simp
  | cons d ds ih =>
    simp only [List.foldl_cons, List.any_cons, ih]
    by_cases h : d.dailyHours.value ≠ [] ∧ d.dailyHours.value ≠ "0:00".toList
    · rw [if_pos h, decide_eq_true h]
      simp
    · rw [if_neg h, decide_eq_false h]
      simp

theorem hasWorkingHours_eq (ms : List (Option Nat)) (days : List DayEntry)
    (h : ShowsMinutes days ms) : hasWorkingHours days = someDayWorked ms := by
  unfold hasWorkingHours
  rw [hasWorkingHours_fold, Bool.false_or]
  induction ms generalizing days with
  | nil =>
    cases days with
    | nil => rfl
    | cons d ds => simp [ShowsMinutes] at h
  | cons m ms ih =>
    cases days with
    | nil => simp [ShowsMinutes] at h
    | cons d ds =>
      simp only [ShowsMinutes, List.map_cons, List.cons.injEq] at h
      obtain ⟨hd, hds⟩ := h
      simp only [List.any_cons, someDayWorked] at ih ⊢
      rw [ih ds hds, hd]
      congr 1
      cases m with
      | none => simp [displayMinutes]
      | some k =>
        simp only [displayMinutes, ne_eq, formatMinutes_ne_nil, not_false_eq_true,
          true_and, formatMinutes_eq_zero_iff]

/-- C4: for every assignment of the three required fields and every list of
day entries showing daily minutes, `validateForm` shows exactly one `required`
failure per required field that is blank after trimming, in declaration order,
followed by the single aggregate failure if and only if no day has minutes set
and non-zero; and it returns true if and only if that sequence is empty. -/
theorem validateForm_failures (s : Form) (ms : List (Option Nat))
    (h : ShowsMinutes s.dayEntries ms) :
    (validateForm s).shown = expectedFailures s ms ∧
    ((validateForm s).isValid = true ↔ expectedFailures s ms = []) := by
  unfold validateForm expectedFailures checkRequired
  rw [hasWorkingHours_eq ms s.dayEntries h]
  by_cases h1 : trim s.employeeName.input.value = [] <;>
  by_cases h2 : trim s.calendarWeek.input.value = [] <;>
  by_cases h3 : trim s.costCenter.input.value = [] <;>
  cases someDayWorked ms <;>
  simp [h1, h2, h3, List.filter]

theorem validateForm_failures_witness :
    ShowsMinutes (sampleForm [] [] [] (List.replicate 5 (dayShowing []))).dayEntries
      (List.replicate 5 none) ∧
    (validateForm (sampleForm [] [] [] (List.replicate 5 (dayShowing [])))).shown
      = [Failure.required "employeeName".toList requiredMessage,
         Failure.required "calendarWeek".toList requiredMessage,
         Failure.required "costCenter".toList requiredMessage,
         Failure.banner noWorkingHoursMessage] ∧
    (validateForm (sampleForm [] [] [] (List.replicate 5 (dayShowing [])))).isValid = false :=
  ⟨by decide,
    (validateForm_failures (sampleForm [] [] [] (List.replicate 5 (dayShowing [])))
      (List.replicate 5 none) (by decide)).1.trans (by decide),
    by decide⟩

theorem checkRequired_input (fieldId : Str) (f : Field) :
    (checkRequired fieldId f).1.input = f.input := by
  unfold checkRequired
  split <;> rfl

theorem checkRequired_idem (fieldId : Str) (f : Field) :
    checkRequired fieldId (checkRequired fieldId f).1 = checkRequired fieldId f := by
  unfold checkRequired
  by_cases h : trim f.input.value = []
  · simp [h, showInputError]
  · cases hm : f.message <;> simp [h, removeInputError, hm]

theorem validateForm_dayEntries (s : Form) : (validateForm s).form.dayEntries = s.dayEntries := by
  unfold validateForm
  split <;> rfl

theorem validateForm_idem (s : Form) : validateForm (validateForm s).form = validateForm s := by
  have hd := validateForm_dayEntries s
  have e1 := checkRequired_idem "employeeName".toList s.employeeName
  have e2 := checkRequired_idem "calendarWeek".toList s.calendarWeek
  have e3 := checkRequired_idem "costCenter".toList s.costCenter
  unfold validateForm at hd ⊢
  by_cases hw : hasWorkingHours s.dayEntries = true
  · simp only [hw, if_true] at hd ⊢
    simp only [hw, if_true, e1, e2, e3]
  · simp only [hw, if_false] at hd ⊢
    simp only [hw, if_false, e1, e2, e3, showError, Bool.false_eq_true]

theorem validateTimeInput_values (d : DayEntry) (b : Banner) :
    (validateTimeInput d b).1.1.values = d.values := by
  unfold validateTimeInput
  simp only []
  split
  · split <;> rfl
  · rfl

theorem blurEvent_values (i : Nat) (s : Form) :
    (blurEvent i s).dayEntries.map DayEntry.values = s.dayEntries.map DayEntry.values := by
  unfold blurEvent
  cases h : s.dayEntries[i]? with
  | none => rfl
  | some d =>
    simp only [List.map_set, validateTimeInput_values]
    apply List.ext_getElem?
    intro n
    by_cases hn : i = n
    · subst hn
      have hlt : i < s.dayEntries.length := by
        rcases Nat.lt_or_ge i s.dayEntries.length with hlt | hge
        · exact hlt
        · rw [List.getElem?_eq_none hge] at h
          exact absurd h (by simp)
      have hget : s.dayEntries[i] = d := by
        have h2 := List.getElem?_eq_getElem hlt
        rw [h] at h2
        exact (Option.some.inj h2).symm
      simp [List.getElem?_set, hlt, hget]
    · simp [List.getElem?_set, hn]

theorem validation_values (s : Form) :
    (validateForm s).form.dayEntries = s.dayEntries ∧
    (validateForm s).form.employeeName.input = s.employeeName.input ∧
    (validateForm s).form.calendarWeek.input = s.calendarWeek.input ∧
    (validateForm s).form.costCenter.input = s.costCenter.input ∧
    (validateForm s).form.totalHours = s.totalHours ∧
    (validateForm s).form.overtimeHours = s.overtimeHours := by
  refine ⟨validateForm_dayEntries s, ?_, ?_, ?_, ?_, ?_⟩
  · unfold validateForm
    split <;> exact checkRequired_input _ _
  · unfold validateForm
    split <;> exact checkRequired_input _ _
  · unfold validateForm
    split <;> exact checkRequired_input _ _
  · unfold validateForm
    split <;> rfl
  · unfold validateForm
    split <;> rfl

/-- C7: validation is a read-only, idempotent query.  `validateForm` leaves
every day entry, the three required-field values and the displayed total and
overtime unchanged; `validateTimeInput` leaves the start, end, break and
daily-hours values of its day entry unchanged, and so its `blur` listener
leaves those of every day entry and the total and overtime unchanged; calling
`validateForm` twice in a row returns the same result, shows the same failures
and leaves the same page as calling it once. -/
theorem validation_readOnly (s : Form) (i : Nat) (d : DayEntry) (b : Banner) :
    (validateForm s).form.dayEntries = s.dayEntries ∧
    (validateForm s).form.employeeName.input = s.employeeName.input ∧
    (validateForm s).form.calendarWeek.input = s.calendarWeek.input ∧
    (validateForm s).form.costCenter.input = s.costCenter.input ∧
    (validateForm s).form.totalHours = s.totalHours ∧
    (validateForm s).form.overtimeHours = s.overtimeHours ∧
    (validateTimeInput d b).1.1.values = d.values ∧
    (blurEvent i s).dayEntries.map DayEntry.values = s.dayEntries.map DayEntry.values ∧
    (blurEvent i s).totalHours = s.totalHours ∧
    (blurEvent i s).overtimeHours = s.overtimeHours ∧
    validateForm (validateForm s).form = validateForm s := by
  refine ⟨validateForm_dayEntries s, ?_, ?_, ?_, ?_, ?_, validateTimeInput_values d b,
    blurEvent_values i s, ?_, ?_, validateForm_idem s⟩
  · unfold validateForm
    split <;> exact checkRequired_input _ _
  · unfold validateForm
    split <;> exact checkRequired_input _ _
  · unfold validateForm
    split <;> exact checkRequired_input _ _
  · unfold validateForm
    split <;> rfl
  · unfold validateForm
    split <;> rfl
  · unfold blurEvent
    split <;> rfl
  · unfold blurEvent
    split <;> rfl

/-! ## The daily-hours texts of a page -/

/-- Daily-hours texts that are each empty or a formatted minute count are
the display of some list of daily minutes. -/
theorem showsMinutes_of_forall (days : List DayEntry)
    (h : ∀ d ∈ days, ∃ m : Option Nat, d.dailyHours.value = displayMinutes m) :
    ∃ ms : List (Option Nat), ShowsMinutes days ms := by
  induction days with
  | nil => exact ⟨[], rfl⟩
  | cons d ds ih =>
    obtain ⟨m, hm⟩ := h d (by simp)
    obtain ⟨ms, hms⟩ := ih (fun x hx => h x (by simp [hx]))
    refine ⟨m :: ms, ?_⟩
    unfold ShowsMinutes at hms ⊢
    simp [hm, hms]

/-! ## Reset -/

theorem totalMinutes_unset (days : List DayEntry)
    (h : ∀ d ∈ days, d.dailyHours.value = []) : totalMinutes days = .int 0 := by
  unfold totalMinutes
  induction days with
  | nil => rfl
  | cons d ds ih =>
    have hd : d.dailyHours.value = [] := h d (by simp)
    simp only [List.foldl_cons, hd, ne_eq, not_true_eq_false, if_false]
    exact ih (fun x hx => h x (by simp [hx]))

/-- C8: `resetForm` takes effect only when the dialog is confirmed.  Declined,
the page is unchanged.  Accepted, on a page whose markup gives the start, end
and required-field inputs an empty default value: every day has start and end
empty, break duration `30`, daily hours unset and its error border cleared, the
three required fields are empty, the banner is hidden, and the recomputed total
and overtime are both `0:00`. -/
theorem resetForm_spec (s : Form)
    (hdays : ∀ d ∈ s.dayEntries, d.startTime.defaultValue = [] ∧ d.endTime.defaultValue = [])
    (hname : s.employeeName.input.defaultValue = [])
    (hweek : s.calendarWeek.input.defaultValue = [])
    (hcost : s.costCenter.input.defaultValue = []) :
    resetForm false s = s ∧
    (resetForm true s).dayEntries.length = s.dayEntries.length ∧
    (∀ d ∈ (resetForm true s).dayEntries,
      d.startTime.value = [] ∧ d.endTime.value = [] ∧
      d.breakDuration.value = "30".toList ∧ breakMinutes d.breakDuration.value = .int 30 ∧
      d.dailyHours.value = [] ∧ d.borderColor = colorBorder) ∧
    (resetForm true s).employeeName.input.value = [] ∧
    (resetForm true s).calendarWeek.input.value = [] ∧
    (resetForm true s).costCenter.input.value = [] ∧
    (resetForm true s).errorMessage.hidden = true ∧
    (resetForm true s).totalHours = "0:00".toList ∧
    (resetForm true s).overtimeHours = "0:00".toList := by
  have hfield : ∀ f : Field, (clearInputError f).input = f.input := by
    intro f
    unfold clearInputError
    split <;> rfl
  have htotal : totalMinutes
      (List.map removeError
        (List.map
          (fun (d : DayEntry) =>
            { d with
              breakDuration := { d.breakDuration with value := "30".toList }
              dailyHours := { d.dailyHours with value := [] } })
          (formReset s).dayEntries)) = .int 0 := by
    apply totalMinutes_unset
    intro d hd
    simp only [List.mem_map] at hd
    obtain ⟨_, ⟨_, _, rfl⟩, rfl⟩ := hd
    rfl
  refine ⟨rfl, ?_, ?_, ?_, ?_, ?_, rfl, ?_, ?_⟩
  · simp [resetForm, calculateTotals, formReset]
  · intro d hd
    simp only [resetForm, calculateTotals, formReset, if_true, List.mem_map] at hd
    obtain ⟨_, ⟨_, ⟨d0, hd0, rfl⟩, rfl⟩, rfl⟩ := hd
    have hb : breakMinutes "30".toList = .int 30 := by decide
    refine ⟨?_, ?_, rfl, hb, rfl, rfl⟩
    · exact (hdays d0 hd0).1
    · exact (hdays d0 hd0).2
  · simp only [resetForm, calculateTotals, if_true, hfield]
    simpa [formReset, Input.reset] using hname
  · simp only [resetForm, calculateTotals, if_true, hfield]
    simpa [formReset, Input.reset] using hweek
  · simp only [resetForm, calculateTotals, if_true, hfield]
    simpa [formReset, Input.reset] using hcost
  · simp only [resetForm, calculateTotals, if_true, htotal]
    decide
  · simp only [resetForm, calculateTotals, if_true, htotal]
    decide

theorem resetForm_spec_witness :
    (resetForm true busyForm).totalHours = "0:00".toList ∧
    (resetForm true busyForm).employeeName.input.value = [] ∧
    (resetForm true busyForm).dayEntries
      = [{ sampleDay [] [] "30".toList with borderColor := colorBorder }] ∧
    resetForm false busyForm = busyForm :=
  ⟨(resetForm_spec busyForm (by decide) (by decide) (by decide) (by decide)).2.2.2.2.2.2.2.1,
    (resetForm_spec busyForm (by decide) (by decide) (by decide) (by decide)).2.2.2.1,
    by decide,
    (resetForm_spec busyForm (by decide) (by decide) (by decide) (by decide)).1⟩

/-! ## Report generation -/

theorem validateForm_exportBtn (s : Form) : (validateForm s).form.exportBtn = s.exportBtn := by
  unfold validateForm
  split <;> rfl

theorem validateForm_withButton (s : Form) (btn : Button) :
    validateForm { s with exportBtn := btn }
      = { validateForm s with form := { (validateForm s).form with exportBtn := btn } } := by
  unfold validateForm
  split <;> rfl

theorem buildReport_withButton (currentDate : Str) (s : Form) (btn : Button) :
    buildReport currentDate { s with exportBtn := btn } = buildReport currentDate s := rfl

theorem exportToPDF_invalid (currentDate : Str) (libraryThrows : Bool) (s : Form)
    (h : (validateForm s).isValid = false) :
    exportToPDF currentDate libraryThrows s = ((validateForm s).form, none) := by
  unfold exportToPDF
  simp [h]

theorem exportToPDF_throws (currentDate : Str) (s : Form)
    (h : (validateForm s).isValid = true) :
    exportToPDF currentDate true s
      = ({ (validateForm s).form with
            errorMessage := { textContent := exportFailedMessage, hidden := false }
            exportBtn := idleButton }, none) := by
  unfold exportToPDF
  simp only [h, Bool.not_true, Bool.false_eq_true, if_false, if_true]
  rfl

theorem exportToPDF_saves (currentDate : Str) (s : Form)
    (h : (validateForm s).isValid = true) :
    exportToPDF currentDate false s
      = ({ (validateForm s).form with exportBtn := idleButton },
          some (buildReport currentDate (validateForm s).form)) := by
  unfold exportToPDF
  simp only [h, Bool.not_true, Bool.false_eq_true, if_false]
  rfl

/-- C9: on a page that passes `validateForm`, the busy flag is released on
every exit path of `exportToPDF`: whether the document library throws or not,
the export button ends enabled and out of its loading state.  When the library
throws, no report is saved, the failure message is shown in the banner, and
the day entries, required fields and displayed totals are exactly those of the
page before the call; when it does not throw, the report is saved. -/
theorem exportToPDF_releases (currentDate : Str) (libraryThrows : Bool) (s : Form)
    (hvalid : (validateForm s).isValid = true) :
    (exportToPDF currentDate libraryThrows s).1.exportBtn = idleButton ∧
    (exportToPDF currentDate libraryThrows s).1.exportBtn.disabled = false ∧
    (exportToPDF currentDate true s).2 = none ∧
    (exportToPDF currentDate true s).1.errorMessage
      = { textContent := exportFailedMessage, hidden := false } ∧
    (exportToPDF currentDate true s).1.dayEntries = s.dayEntries ∧
    (exportToPDF currentDate true s).1.employeeName.input = s.employeeName.input ∧
    (exportToPDF currentDate true s).1.calendarWeek.input = s.calendarWeek.input ∧
    (exportToPDF currentDate true s).1.costCenter.input = s.costCenter.input ∧
    (exportToPDF currentDate true s).1.totalHours = s.totalHours ∧
    (exportToPDF currentDate true s).1.overtimeHours = s.overtimeHours ∧
    (exportToPDF currentDate false s).2 = some (buildReport currentDate (validateForm s).form) := by
  have hro := validation_values s
  have hbtn : (exportToPDF currentDate libraryThrows s).1.exportBtn = idleButton := by
    cases libraryThrows
    · rw [exportToPDF_saves currentDate s hvalid]
    · rw [exportToPDF_throws currentDate s hvalid]
  refine ⟨hbtn, by rw [hbtn]; rfl, ?_⟩
  rw [exportToPDF_throws currentDate s hvalid, exportToPDF_saves currentDate s hvalid]
  exact ⟨rfl, rfl, hro.1, hro.2.1, hro.2.2.1, hro.2.2.2.1, hro.2.2.2.2.1, hro.2.2.2.2.2, rfl⟩

theorem exportToPDF_releases_witness :
    (validateForm busyForm).isValid = true ∧
    (exportToPDF "05.11.2026".toList true busyForm).1.exportBtn.disabled = false ∧
    (exportToPDF "05.11.2026".toList false busyForm).1.exportBtn.disabled = false :=
  ⟨by decide,
    (exportToPDF_releases "05.11.2026".toList true busyForm (by decide)).2.1,
    (exportToPDF_releases "05.11.2026".toList false busyForm (by decide)).2.1⟩

/-! ## The busy flag -/

/-- The flag `exportToPDF` leaves: set only if validation failed and the flag
was set before the call. -/
theorem exportToPDF_disabled (currentDate : Str) (libraryThrows : Bool) (s : Form) :
    (exportToPDF currentDate libraryThrows s).1.exportBtn.disabled
      = (!(validateForm s).isValid && s.exportBtn.disabled) := by
  have hb := validateForm_exportBtn s
  cases hv : (validateForm s).isValid
  · rw [exportToPDF_invalid _ _ _ hv, hb]
    simp
  · cases libraryThrows
    · rw [exportToPDF_saves _ _ hv]
      rfl
    · rw [exportToPDF_throws _ _ hv]
      rfl

theorem inputEvent_exportBtn (i : Nat) (s : Form) : (inputEvent i s).exportBtn = s.exportBtn := by
  unfold inputEvent
  split <;> rfl

theorem blurEvent_exportBtn (i : Nat) (s : Form) : (blurEvent i s).exportBtn = s.exportBtn := by
  unfold blurEvent
  split <;> rfl

theorem resetForm_exportBtn (confirmed : Bool) (s : Form) :
    (resetForm confirmed s).exportBtn = s.exportBtn := by
  cases confirmed <;> rfl

theorem filled_exportBtn (s : Form) (field : RequiredField) (text : Str) :
    (s.filled field text).exportBtn = s.exportBtn := by
  cases field <;> rfl

/-- No event leaves the busy flag set on a page where it was clear. -/
theorem step_keeps_enabled (e : Event) (s : Form) (h : s.exportBtn.disabled = false) :
    (step e s).1.exportBtn.disabled = false := by
  cases e with
  | type i control text =>
    simp only [step]
    split
    · exact h
    · rw [inputEvent_exportBtn]
      exact h
  | blur i =>
    simp only [step]
    rw [blurEvent_exportBtn]
    exact h
  | fill field text =>
    simp only [step]
    rw [filled_exportBtn]
    exact h
  | clickExport currentDate libraryThrows =>
    simp only [step]
    rw [exportToPDF_disabled, h]
    simp
  | submit currentDate libraryThrows =>
    simp only [step]
    rw [exportToPDF_disabled, h]
    simp
  | clickReset confirmed =>
    simp only [step]
    rw [resetForm_exportBtn]
    exact h
  | dismiss => exact h

theorem run_keeps_enabled (events : List Event) (s : Form) (h : s.exportBtn.disabled = false) :
    (run events s).1.exportBtn.disabled = false := by
  induction events generalizing s with
  | nil => exact h
  | cons e es ih => exact ih (step e s).1 (step_keeps_enabled e s h)

theorem step_report_length (e : Event) (s : Form) :
    (step e s).2.toList.length ≤ (if e.isExport then 1 else 0) := by
  cases e with
  | type i control text =>
    simp only [step]
    split <;> simp
  | blur i => simp [step]
  | fill field text => simp [step]
  | clickExport currentDate libraryThrows =>
    simp only [Event.isExport, if_true]
    cases (step (Event.clickExport currentDate libraryThrows) s).2 <;> simp
  | submit currentDate libraryThrows =>
    simp only [Event.isExport, if_true]
    cases (step (Event.submit currentDate libraryThrows) s).2 <;> simp
  | clickReset confirmed => simp [step]
  | dismiss => simp [step]

theorem run_reports_length (events : List Event) (s : Form) :
    (run events s).2.length ≤ events.countP Event.isExport := by
  induction events generalizing s with
  | nil => simp [run]
  | cons e es ih =>
    have h1 := step_report_length e s
    have h2 := ih (step e s).1
    simp only [run, List.length_append, List.countP_cons]
    omega

/-- C10: report generation is gated by the busy flag on every page the
program reaches.  `exportToPDF` sets the flag and clears it again within one
uninterrupted run (its body has no `await`), and no other listener touches the
export button; so after every sequence of events (typing, leaving an input,
export clicks and form submits with either outcome of the document library,
resets, banner timers) from a page with the flag clear, the flag is clear.  No invocation,
whether from the export button or from form submit, therefore ever finds a
generation in flight: on a reached page with the flag set an invocation leaves
the page unchanged and saves no report, there being no such page.  Each
invocation saves at most one report, and the flag is clear again after it. -/
theorem exportToPDF_gated (events : List Event) (s : Form)
    (h : s.exportBtn.disabled = false) :
    (run events s).1.exportBtn.disabled = false ∧
    (∀ (currentDate : Str) (libraryThrows : Bool),
      (run events s).1.exportBtn.disabled = true →
      exportToPDF currentDate libraryThrows (run events s).1 = ((run events s).1, none)) ∧
    (run events s).2.length ≤ events.countP Event.isExport ∧
    (∀ (currentDate : Str) (libraryThrows : Bool),
      (exportToPDF currentDate libraryThrows (run events s).1).1.exportBtn.disabled = false) := by
  have hclear := run_keeps_enabled events s h
  refine ⟨hclear, ?_, run_reports_length events s, ?_⟩
  · intro currentDate libraryThrows hset
    rw [hclear] at hset
    exact absurd hset (by decide)
  · intro currentDate libraryThrows
    rw [exportToPDF_disabled, hclear]
    simp

theorem exportToPDF_gated_witness :
    (run
      [Event.type 0 DayControl.startTime "09:00".toList,
        Event.type 0 DayControl.endTime "17:00".toList,
        Event.fill RequiredField.employeeName "Ada".toList,
        Event.fill RequiredField.calendarWeek "KW 12".toList,
        Event.fill RequiredField.costCenter "4711".toList,
        Event.clickExport "05.11.2026".toList false,
        Event.submit "05.11.2026".toList true]
      (sampleForm [] [] [] [sampleDay [] [] "30".toList])).1.exportBtn.disabled = false ∧
    (run
      [Event.type 0 DayControl.startTime "09:00".toList,
        Event.type 0 DayControl.endTime "17:00".toList,
        Event.fill RequiredField.employeeName "Ada".toList,
        Event.fill RequiredField.calendarWeek "KW 12".toList,
        Event.fill RequiredField.costCenter "4711".toList,
        Event.clickExport "05.11.2026".toList false,
        Event.submit "05.11.2026".toList true]
      (sampleForm [] [] [] [sampleDay [] [] "30".toList])).2.length = 1 :=
  ⟨(exportToPDF_gated _ (sampleForm [] [] [] [sampleDay [] [] "30".toList]) (by decide)).1,
    by decide⟩

end TimeTracker
